import Mathlib

/-!
# FAQ panel of the Programming Club site (`src/js/faq.js`)

A shallow embedding of the FAQ accordion, search and category filter.

The document is modelled by the parts of it that `faq.js` reads or writes:

* a `.faq-item` element is an `Item`: its `open` class, its inline `display`,
  its `data-category` and `data-index` attributes, and the three elements the
  script looks up inside it with `querySelector`, each of which may be absent
  (`none` is the `null` that `querySelector` returns);
* the children of the `h4` heading and of the answer are text nodes and
  `<mark class="search-highlight">` elements (`Node`);
* a call either runs to its end or raises (a `TypeError` on a `null`
  reference, a `SyntaxError` from `new RegExp`); the writes made before the
  exception stay in the document, so both outcomes carry the document
  (`Completion`);
* the host's `RegExp` and HTML parser are modelled on a fragment; a call that
  leaves the fragment has no modelled outcome (`Option.none`).

Strings are lists of characters, and the case mappings are those of the ASCII
letters (every other character maps to itself).
-/

namespace FAQ

/-! ## Text -/

/-- A JavaScript string. -/
abbrev Text := List Char

/-- `String.prototype.toLowerCase`, on ASCII letters. -/
def toLowerCase (s : Text) : Text := s.map Char.toLower

/-- `s.includes(t)`: `t` occurs in `s` as a contiguous run of characters. -/
def includes : Text → Text → Bool
  | [], t => t.isPrefixOf []
  | c :: cs, t => t.isPrefixOf (c :: cs) || includes cs t

/-! ## Outcome of a call -/

/-- How a call ended, with the document it left behind. -/
inductive Completion (σ : Type) where
  /-- The call ran to its end. -/
  | returned (s : σ)
  /-- An exception left the call; `s` holds the writes made before it. -/
  | raised (s : σ)
  deriving Repr, DecidableEq

namespace Completion

/-- The document after the call, however it ended. -/
def state {σ : Type} : Completion σ → σ
  | returned s => s
  | raised s => s

/-- Whether the call ran to its end. -/
def isReturned {σ : Type} : Completion σ → Bool
  | returned _ => true
  | raised _ => false

/-- Apply `f` to the document carried by the outcome. -/
def map {σ τ : Type} (f : σ → τ) : Completion σ → Completion τ
  | returned s => returned (f s)
  | raised s => raised (f s)

end Completion

/-! ## The document -/

/-- A child node of the heading or of the answer. -/
inductive Node where
  /-- A text node. -/
  | text (s : Text)
  /-- A `<mark class="search-highlight">` element around the text `s`. -/
  | mark (s : Text)
  deriving Repr, DecidableEq

namespace Node

/-- The text of a node. -/
def textContent : Node → Text
  | text s => s
  | mark s => s

/-- Whether the node is a highlight marker. -/
def isMark : Node → Bool
  | text _ => false
  | mark _ => true

end Node

/-- The children of an element. -/
abbrev Content := List Node

/-- `element.textContent`: the texts of the children, in order. -/
def textContent (c : Content) : Text :=
  c.foldr (fun n acc => n.textContent ++ acc) []

/-- `element.innerHTML.includes('<mark')`: a text node is serialised with its
`<` escaped, so the serialisation contains `<mark` exactly when a marker
element is among the children. -/
def hasMark (c : Content) : Bool :=
  c.any Node.isMark

/-- The inline `style.display` of an element. -/
inductive Display where
  /-- No inline value has been written. -/
  | unset
  /-- The value `'block'`. -/
  | block
  /-- The value `'none'`. -/
  | none
  deriving Repr, DecidableEq

/-- The `.faq-question` element. -/
structure Question where
  /-- The `aria-expanded` attribute (`none`: absent). -/
  ariaExpanded : Option Bool
  /-- The children of the `h4` inside the question (`none`: no `h4`). -/
  h4 : Option Content
  deriving Repr, DecidableEq

/-- The `.faq-answer` element. -/
structure Answer where
  /-- Whether `classList` contains `active`. -/
  active : Bool
  /-- The inline `style.maxHeight` in pixels (`none`: not written). -/
  maxHeight : Option Nat
  /-- Whether `style.transition` holds `'max-height 0.3s ease-in-out'`. -/
  transition : Bool
  /-- The `scrollHeight` the layout reports: the natural height of the content. -/
  scrollHeight : Nat
  /-- The children of the answer. -/
  content : Content
  deriving Repr, DecidableEq

/-- The `.faq-toggle` indicator element. -/
structure Toggle where
  /-- Whether `classList` contains `active`. -/
  active : Bool
  deriving Repr, DecidableEq

/-- A `.faq-item` element. The toggle indicator lies outside the heading and
outside the answer, so rewriting their `innerHTML` leaves it in place. -/
structure Item where
  /-- Whether `classList` contains `open`. -/
  openClass : Bool
  /-- The inline `style.display`. -/
  display : Display
  /-- The `data-category` attribute. -/
  category : Option String
  /-- The `data-index` attribute. -/
  dataIndex : Option Nat
  /-- The result of `item.querySelector('.faq-question')`. -/
  question : Option Question
  /-- The result of `item.querySelector('.faq-answer')`. -/
  answer : Option Answer
  /-- The result of `item.querySelector('.faq-toggle')`. -/
  toggle : Option Toggle
  deriving Repr, DecidableEq

/-- The `.faq-no-results` notice. -/
structure Notice where
  /-- The term interpolated into the notice when it was created. -/
  term : Text
  /-- The inline `style.display`. -/
  display : Display
  deriving Repr, DecidableEq

/-- The `.faq-results-count` indicator. -/
structure ResultsCount where
  /-- The `textContent`. -/
  text : Text
  /-- The inline `style.display`. -/
  display : Display
  deriving Repr, DecidableEq

/-- The part of the document the FAQ script works on. -/
structure Panel where
  /-- The `.faq-item` elements in document order. -/
  items : List Item
  /-- Whether a `.faq-container` element exists. -/
  hasContainer : Bool
  /-- Whether a `.faq-search-container` element exists. -/
  hasSearchContainer : Bool
  /-- The `.faq-no-results` element of the document, if there is one. -/
  noResults : Option Notice
  /-- The `.faq-results-count` element of the document, if there is one. -/
  resultsCount : Option ResultsCount
  deriving Repr, DecidableEq

namespace Item

/-- The `isOpen` of `toggleFAQ`: the answer carries the `active` class. -/
def isOpen (item : Item) : Bool :=
  match item.answer with
  | some answer => answer.active
  | none => false

/-- Whether the toggle indicator carries the `active` class. -/
def toggleActive (item : Item) : Bool :=
  match item.toggle with
  | some toggle => toggle.active
  | none => false

/-- The entry is shown: its inline display is `'block'`. -/
def isVisible (item : Item) : Bool :=
  item.display == Display.block

/-- All three open markers are set. -/
def fullyOpen (item : Item) : Bool :=
  item.isOpen && item.toggleActive && item.openClass

/-- None of the three open markers is set. -/
def fullyClosed (item : Item) : Bool :=
  !item.isOpen && !item.toggleActive && !item.openClass

end Item

/-! ## Accordion -/

/-- `openFAQItem(item)`. The deferred `scrollIntoView` moves the viewport only
and is left out. -/
def openFAQItem (item : Item) : Completion Item :=
  match item.answer with
  | none => .raised item
  | some answer =>
    -- answer.classList.add('active')
    let item1 := { item with answer := some { answer with active := true } }
    match item.toggle with
    | none => .raised item1
    | some _ =>
      -- toggle.classList.add('active'); item.classList.add('open');
      -- answer.style.maxHeight = answer.scrollHeight + 'px'; answer.style.transition = ...
      .returned { item with
        answer := some { answer with
          active := true, maxHeight := some answer.scrollHeight, transition := true }
        toggle := some { active := true }
        openClass := true }

/-- `closeFAQItem(item)`. -/
def closeFAQItem (item : Item) : Completion Item :=
  match item.answer with
  | none => .raised item
  | some answer =>
    -- answer.classList.remove('active')
    let item1 := { item with answer := some { answer with active := false } }
    match item.toggle with
    | none => .raised item1
    | some _ =>
      -- toggle.classList.remove('active'); item.classList.remove('open');
      -- answer.style.maxHeight = '0px'
      .returned { item with
        answer := some { answer with active := false, maxHeight := some 0 }
        toggle := some { active := false }
        openClass := false }

/-- `items.forEach(f)` where `f` rewrites the element it is given: the loop
stops at the first element on which `f` raises, and the later elements are
left as they were. -/
def forEachItem (f : Item → Completion Item) : List Item → Completion (List Item)
  | [] => .returned []
  | item :: rest =>
    match f item with
    | .returned item1 => (forEachItem f rest).map (fun rest1 => item1 :: rest1)
    | .raised item1 => .raised (item1 :: rest)

/-- `closeAllFAQItems()`: `closeFAQItem` on every `.faq-item.open`. -/
def closeAllFAQItems (s : Panel) : Completion Panel :=
  (forEachItem (fun item => if item.openClass then closeFAQItem item else .returned item)
    s.items).map (fun items => { s with items := items })

/-- Run `f` on the element at position `i` of the list and write the element
it leaves behind back to that position. -/
def onItem (s : Panel) (i : Nat) (f : Item → Completion Item) : Completion Panel :=
  match s.items[i]? with
  | none => .raised s
  | some item => (f item).map (fun item1 => { s with items := s.items.set i item1 })

/-- `question.setAttribute('aria-expanded', value)` on the question of an item. -/
def setAriaExpanded (value : Bool) (item : Item) : Completion Item :=
  match item.question with
  | none => .raised item
  | some question =>
    .returned { item with question := some { question with ariaExpanded := some value } }

/-- `trackFAQInteraction(item, isOpen)`: reads the heading's text for the
analytics event and the console; it writes nothing to the document. -/
def trackFAQInteraction (item : Item) : Completion Item :=
  match item.question.bind (fun question => question.h4) with
  | none => .raised item
  | some _ => .returned item

/-- Continue with `f` when the call returned; keep the exception otherwise. -/
def andThen {σ : Type} (c : Completion σ) (f : σ → Completion σ) : Completion σ :=
  match c with
  | .returned s => f s
  | .raised s => .raised s

/-- `toggleFAQ(item)` for the element at position `i` of the list; a position
outside the list stands for a reference that is not an element. -/
def toggleFAQ (s : Panel) (i : Nat) : Completion Panel :=
  match s.items[i]? with
  | none => .raised s
  | some item =>
    match item.answer with
    | none => .raised s
    | some answer =>
      let isOpen := answer.active
      if isOpen then
        andThen (onItem s i closeFAQItem) fun s1 =>
        andThen (onItem s1 i (setAriaExpanded (!isOpen))) fun s2 =>
        onItem s2 i trackFAQInteraction
      else
        andThen (closeAllFAQItems s) fun s0 =>
        andThen (onItem s0 i openFAQItem) fun s1 =>
        andThen (onItem s1 i (setAriaExpanded (!isOpen))) fun s2 =>
        onItem s2 i trackFAQInteraction

/-- `expandAllFAQ()`: `openFAQItem` on every item without the `open` class. -/
def expandAllFAQ (s : Panel) : Completion Panel :=
  (forEachItem (fun item => if !item.openClass then openFAQItem item else .returned item)
    s.items).map (fun items => { s with items := items })

/-- `collapseAllFAQ()`. -/
def collapseAllFAQ (s : Panel) : Completion Panel :=
  closeAllFAQItems s

/-- `filterFAQByCategory(category)`. -/
def filterFAQByCategory (category : String) (s : Panel) : Completion Panel :=
  let items := s.items.map fun item =>
    if category = "all" ∨ item.category = some category then
      { item with display := Display.block }
    else
      { item with display := Display.none }
  closeAllFAQItems { s with items := items }

/-- `initFAQ` on the item at position `index`: an item that has both a
question and an answer is given its index, a collapsed answer and
`aria-expanded = 'false'`; any other item is skipped. The remaining attributes
written here (`role`, `tabindex`, the ids) are never read again. -/
def initItem (index : Nat) (item : Item) : Item :=
  match item.question, item.answer with
  | some question, some answer =>
    { item with
      dataIndex := some index
      answer := some { answer with maxHeight := some 0 }
      question := some { question with ariaExpanded := some false } }
  | _, _ => item

/-- The loop of `initFAQ` over the items from position `index` on. -/
def initItems : Nat → List Item → List Item
  | _, [] => []
  | index, item :: rest => initItem index item :: initItems (index + 1) rest

/-- `initFAQ()`; the listeners it installs call `toggleFAQ`, `searchFAQ`,
`clearFAQSearch` and `filterFAQByCategory`. -/
def initFAQ (s : Panel) : Panel :=
  { s with items := initItems 0 s.items }

/-- The guard of `initFAQ`: the item has a question and an answer. -/
def madeInteractive (item : Item) : Bool :=
  item.question.isSome && item.answer.isSome

/-! ## The host's regular expressions, on a fragment

`new RegExp(source, 'gi')` is modelled for sources made of ordinary characters
and `.`; a quantifier with nothing to repeat is the `SyntaxError` it is in
every engine; any other use of a syntax character is outside the fragment. -/

/-- An atom of a pattern. -/
inductive Atom where
  /-- An ordinary character, matched without regard to case. -/
  | lit (c : Char)
  /-- The character `.`: any character but a line terminator. -/
  | dot
  deriving Repr, DecidableEq

/-- What `new RegExp(source, 'gi')` gives. -/
inductive RegExp where
  /-- A pattern: a sequence of atoms. -/
  | pattern (atoms : List Atom)
  /-- The constructor raises a `SyntaxError`. -/
  | syntaxError
  deriving Repr, DecidableEq

/-- Where the scan of a pattern stands with respect to quantifiers. -/
inductive Scan where
  /-- Nothing to repeat: at the start, or right after a complete quantifier. -/
  | start
  /-- Right after an atom. -/
  | afterAtom
  /-- Right after `*`, `+` or `?` used as a quantifier; a `?` here makes it lazy. -/
  | afterQuantifier
  deriving Repr, DecidableEq

/-- The syntax characters whose meaning is not modelled. -/
def outsideFragment (c : Char) : Bool :=
  c == '\\' || c == '^' || c == '$' || c == '(' || c == ')' || c == '[' || c == ']' ||
    c == '\x7b' || c == '\x7d' || c == '|'

/-- The quantifier characters. -/
def isQuantifier (c : Char) : Bool :=
  c == '*' || c == '+' || c == '?'

/-- Keep a certain `SyntaxError`; a pattern that uses a quantifier is outside
the fragment. -/
def onlySyntaxError : Option RegExp → Option RegExp
  | some .syntaxError => some .syntaxError
  | _ => none

/-- The scan of a pattern source, left to right. -/
def parsePattern : Scan → Text → Option RegExp
  | _, [] => some (.pattern [])
  | q, c :: cs =>
    if outsideFragment c then none
    else if isQuantifier c then
      match q with
      | .start => some .syntaxError
      | .afterAtom => onlySyntaxError (parsePattern .afterQuantifier cs)
      | .afterQuantifier =>
        if c == '?' then onlySyntaxError (parsePattern .start cs) else some .syntaxError
    else
      match parsePattern .afterAtom cs with
      | some (.pattern atoms) =>
        some (.pattern ((if c == '.' then Atom.dot else Atom.lit c) :: atoms))
      | r => r

/-- `new RegExp(source, 'gi')`. The script builds it from a non-empty term only. -/
def newRegExp (source : Text) : Option RegExp :=
  if source = [] then none else parsePattern .start source

/-- The line terminators, which `.` does not match. -/
def isLineTerminator (c : Char) : Bool :=
  c == '\n' || c == '\r' || c == Char.ofNat 0x2028 || c == Char.ofNat 0x2029

/-- Whether an atom matches a character, under the `i` flag. -/
def atomMatches : Atom → Char → Bool
  | .lit p, c => p.toUpper == c.toUpper
  | .dot, c => !isLineTerminator c

/-- Match the atoms at the start of `s`: the matched text and what follows it. -/
def matchAt : List Atom → Text → Option (Text × Text)
  | [], s => some ([], s)
  | _ :: _, [] => none
  | a :: as, c :: cs =>
    if atomMatches a c then
      (matchAt as cs).map fun (m, rest) => (c :: m, rest)
    else none

/-- The opening tag of a highlight marker. -/
def markOpen : Text := "<mark class=\"search-highlight\">".toList

/-- The closing tag of a highlight marker. -/
def markClose : Text := "</mark>".toList

/-- The loop of `text.replace(regex, match => markOpen + match + markClose)`
under the `g` flag: matches are taken left to right, each search starting where
the previous match ended. The patterns of the fragment have at least one atom,
so no match is empty (the guard on the empty match is never taken) and every
match uses up a character: a fuel of the length of the text is never
exhausted. -/
def replaceLoop (atoms : List Atom) : Nat → Text → Text
  | 0, s => s
  | _ + 1, [] => []
  | fuel + 1, c :: cs =>
    match matchAt atoms (c :: cs) with
    | some (m, rest) =>
      if m = [] then c :: replaceLoop atoms fuel cs
      else markOpen ++ m ++ markClose ++ replaceLoop atoms fuel rest
    | none => c :: replaceLoop atoms fuel cs

/-- The call `text.replace(regex, ...)` of `highlightSearchTerms`. -/
def replaceWithMarks (atoms : List Atom) (text : Text) : Text :=
  replaceLoop atoms text.length text

/-! ## The host's HTML parser, on a fragment

Assigning to `innerHTML` is modelled for strings made of plain characters and
highlight markers. -/

/-- A character that the HTML parser copies into a text node as it stands. -/
def isPlain (c : Char) : Bool :=
  !(c == '<' || c == '&' || c == '\r' || c == Char.ofNat 0)

/-- The loop of the parser; each round uses up a character. -/
def parseLoop : Nat → Text → Option Content
  | 0, [] => some []
  | 0, _ :: _ => none
  | fuel + 1, s =>
    if s = [] then some []
    else if markOpen.isPrefixOf s then
      let inner := (s.drop markOpen.length).takeWhile isPlain
      let rest := (s.drop markOpen.length).dropWhile isPlain
      if markClose.isPrefixOf rest then
        (parseLoop fuel (rest.drop markClose.length)).map fun nodes => Node.mark inner :: nodes
      else none
    else
      let run := s.takeWhile isPlain
      if run = [] then none
      else (parseLoop fuel (s.dropWhile isPlain)).map fun nodes => Node.text run :: nodes

/-- The children an element has after `element.innerHTML = html`. -/
def parseHTML (html : Text) : Option Content :=
  parseLoop html.length html

/-! ## Search -/

/-- The `h4` inside the question of an item: `item.querySelector('.faq-question h4')`. -/
def Item.heading (item : Item) : Option Content :=
  item.question.bind fun question => question.h4

/-- Write the children of the heading of an item. -/
def Item.setHeading (item : Item) (c : Content) : Item :=
  match item.question with
  | some question => { item with question := some { question with h4 := some c } }
  | none => item

/-- Write the children of the answer of an item. -/
def Item.setAnswerContent (item : Item) (c : Content) : Item :=
  match item.answer with
  | some answer => { item with answer := some { answer with content := c } }
  | none => item

/-- One branch of `removeHighlighting`:
`if (el.innerHTML.includes('<mark')) el.innerHTML = el.textContent`. -/
def stripMarks (c : Content) : Option Content :=
  if hasMark c then parseHTML (textContent c) else some c

/-- `removeHighlighting(item)`. -/
def removeHighlighting (item : Item) : Option (Completion Item) :=
  match item.heading with
  | none => some (.raised item)
  | some h4 =>
    match stripMarks h4 with
    | none => none
    | some h41 =>
      let item1 := item.setHeading h41
      match item1.answer with
      | none => some (.raised item1)
      | some answer =>
        match stripMarks answer.content with
        | none => none
        | some content1 => some (.returned (item1.setAnswerContent content1))

/-- One branch of `highlightSearchTerms`:
`if (el.textContent.toLowerCase().includes(term))
   el.innerHTML = el.textContent.replace(new RegExp(term, 'gi'), ...)`. -/
def highlight (searchTerm : Text) (c : Content) : Option (Completion Content) :=
  if includes (toLowerCase (textContent c)) searchTerm then
    match newRegExp searchTerm with
    | none => none
    | some .syntaxError => some (.raised c)
    | some (.pattern atoms) =>
      (parseHTML (replaceWithMarks atoms (textContent c))).map .returned
  else some (.returned c)

/-- `highlightSearchTerms(item, searchTerm)`. -/
def highlightSearchTerms (item : Item) (searchTerm : Text) : Option (Completion Item) :=
  match removeHighlighting item with
  | none => none
  | some (.raised item1) => some (.raised item1)
  | some (.returned item1) =>
    match item1.heading, item1.answer with
    | some h4, some answer =>
      match highlight searchTerm h4 with
      | none => none
      | some (.raised _) => some (.raised item1)
      | some (.returned h41) =>
        let item2 := item1.setHeading h41
        match highlight searchTerm answer.content with
        | none => none
        | some (.raised _) => some (.raised item2)
        | some (.returned content1) => some (.returned (item2.setAnswerContent content1))
    | _, _ => some (.raised item1)

/-- The test of `searchFAQ` on an item whose heading and answer exist. -/
def matchesTerm (searchTerm : Text) (h4 : Content) (answer : Answer) : Bool :=
  includes (toLowerCase (textContent h4)) searchTerm ||
    includes (toLowerCase (textContent answer.content)) searchTerm

/-- Put the item a callback left behind in front of the rest of the loop. -/
def consItem (item : Item) :
    Option (Completion (List Item × Bool)) → Option (Completion (List Item × Bool))
  | none => none
  | some c => some (c.map fun (items, hasResults) => (item :: items, hasResults))

/-- The `forEach` of `searchFAQ`, with the `hasResults` flag it maintains. -/
def searchLoop (searchTerm : Text) : List Item → Bool → Option (Completion (List Item × Bool))
  | [], hasResults => some (.returned ([], hasResults))
  | item :: rest, hasResults =>
    match item.heading, item.answer with
    | some h4, some answer =>
      if matchesTerm searchTerm h4 answer then
        let item1 := { item with display := Display.block }
        if searchTerm ≠ [] then
          match highlightSearchTerms item1 searchTerm with
          | none => none
          | some (.raised item2) => some (.raised (item2 :: rest, true))
          | some (.returned item2) => consItem item2 (searchLoop searchTerm rest true)
        else consItem item1 (searchLoop searchTerm rest true)
      else
        consItem { item with display := Display.none } (searchLoop searchTerm rest hasResults)
    | _, _ => some (.raised (item :: rest, hasResults))

/-- `showNoResultsMessage(hasResults, searchTerm)`. A notice created while no
`.faq-container` exists is never attached, so the document is unchanged. -/
def showNoResultsMessage (hasResults : Bool) (searchTerm : Text) (s : Panel) : Panel :=
  if !hasResults && searchTerm ≠ [] then
    match s.noResults with
    | none =>
      if s.hasContainer then
        { s with noResults := some { term := searchTerm, display := Display.block } }
      else s
    | some notice => { s with noResults := some { notice with display := Display.block } }
  else
    match s.noResults with
    | none => s
    | some notice => { s with noResults := some { notice with display := Display.none } }

/-- `hideNoResultsMessage()`. -/
def hideNoResultsMessage (s : Panel) : Panel :=
  match s.noResults with
  | none => s
  | some notice => { s with noResults := some { notice with display := Display.none } }

/-- The text `${n} result${n !== 1 ? 's' : ''} found`. -/
def resultsText (n : Nat) : Text :=
  (Nat.repr n).toList ++ " result".toList ++ (if n ≠ 1 then "s".toList else []) ++
    " found".toList

/-- `document.querySelectorAll('.faq-item[style*="block"]').length`; the only
inline style of an item is its display. -/
def visibleCount (items : List Item) : Nat :=
  (items.filter Item.isVisible).length

/-- `updateSearchResultsCount(searchTerm, hasResults)`. An indicator created
while no `.faq-search-container` exists is never attached, so the document is
unchanged. -/
def updateSearchResultsCount (searchTerm : Text) (s : Panel) : Panel :=
  let element : Option ResultsCount :=
    match s.resultsCount with
    | some e => some e
    | none => if s.hasSearchContainer then some { text := [], display := Display.unset } else none
  match element with
  | none => s
  | some e =>
    if searchTerm ≠ [] then
      let shown : ResultsCount :=
        { text := resultsText (visibleCount s.items), display := Display.block }
      { s with resultsCount := some shown }
    else
      { s with resultsCount := some { e with display := Display.none } }

/-- `resetSearchResultsCount()`. -/
def resetSearchResultsCount (s : Panel) : Panel :=
  match s.resultsCount with
  | none => s
  | some e => { s with resultsCount := some { e with display := Display.none } }

/-- `searchFAQ(searchTerm)`. -/
def searchFAQ (searchTerm : Text) (s : Panel) : Option (Completion Panel) :=
  match searchLoop searchTerm s.items false with
  | none => none
  | some (.raised (items, _)) => some (.raised { s with items := items })
  | some (.returned (items, hasResults)) =>
    some (.returned
      (updateSearchResultsCount searchTerm
        (showNoResultsMessage hasResults searchTerm { s with items := items })))

/-- The `forEach` of `clearFAQSearch`. -/
def clearLoop : List Item → Option (Completion (List Item))
  | [] => some (.returned [])
  | item :: rest =>
    match removeHighlighting { item with display := Display.block } with
    | none => none
    | some (.raised item1) => some (.raised (item1 :: rest))
    | some (.returned item1) =>
      match clearLoop rest with
      | none => none
      | some c => some (c.map fun rest1 => item1 :: rest1)

/-- `clearFAQSearch()`. -/
def clearFAQSearch (s : Panel) : Option (Completion Panel) :=
  match clearLoop s.items with
  | none => none
  | some (.raised items) => some (.raised { s with items := items })
  | some (.returned items) =>
    some (.returned (resetSearchResultsCount (hideNoResultsMessage { s with items := items })))

/-! ## The exported operations -/

/-- A call of one of the operations exported as `window.FAQ`. -/
inductive FaqOp where
  /-- `FAQ.toggle(item)` for the item at position `i`. -/
  | toggle (i : Nat)
  /-- `FAQ.open(item)`. -/
  | openItem (i : Nat)
  /-- `FAQ.close(item)`. -/
  | close (i : Nat)
  /-- `FAQ.openAll()`. -/
  | openAll
  /-- `FAQ.closeAll()`. -/
  | closeAll
  /-- `FAQ.search(term)`. -/
  | search (term : Text)
  /-- `FAQ.clearSearch()`. -/
  | clearSearch
  /-- `FAQ.filterByCategory(category)`. -/
  | filterByCategory (category : String)
  deriving Repr, DecidableEq

/-- The exported calls other than `open` and `openAll`, the two that open an
entry without closing the others first. -/
def FaqOp.keepsExclusive : FaqOp → Bool
  | .openItem _ => false
  | .openAll => false
  | _ => true

/-- The outcome of one exported call. -/
def FaqOp.run : FaqOp → Panel → Option (Completion Panel)
  | .toggle i, s => some (toggleFAQ s i)
  | .openItem i, s => some (onItem s i openFAQItem)
  | .close i, s => some (onItem s i closeFAQItem)
  | .openAll, s => some (expandAllFAQ s)
  | .closeAll, s => some (collapseAllFAQ s)
  | .search term, s => searchFAQ term s
  | .clearSearch, s => clearFAQSearch s
  | .filterByCategory category, s => some (filterFAQByCategory category s)

/-- The document after a sequence of exported calls, each made on the document
the previous one left behind, whether it returned or raised. -/
def runOps : List FaqOp → Panel → Option Panel
  | [], s => some s
  | op :: ops, s =>
    match op.run s with
    | none => none
    | some c => runOps ops c.state

/-- The number of open entries. -/
def openCount (s : Panel) : Nat :=
  (s.items.filter Item.isOpen).length

/-! ## Predicates of the statements -/

/-- The accordion markers of an item: its `open` class, whether it has a toggle
indicator, whether its answer is active, and whether it has an answer. -/
def markers (item : Item) : Bool × Bool × Bool × Bool :=
  (item.openClass, item.toggle.isSome, item.isOpen, item.answer.isSome)

/-- The markers of the items of a panel, in document order. -/
def Panel.markers (s : Panel) : List (Bool × Bool × Bool × Bool) :=
  s.items.map FAQ.markers

/-- The markers of a closed item that has its toggle indicator. -/
def collapse (m : Bool × Bool × Bool × Bool) : Bool × Bool × Bool × Bool :=
  (false, true, false, m.2.2.2)

/-- What `toggleFAQ` on position `i` does to the markers of a sound panel. -/
def toggleMarkers (ms : List (Bool × Bool × Bool × Bool)) (i : Nat) :
    List (Bool × Bool × Bool × Bool) :=
  match ms[i]? with
  | some (_, _, isOpen, true) =>
    if isOpen then ms.set i (false, true, false, true)
    else (ms.map collapse).set i (true, true, true, true)
  | _ => ms

/-- The part of `toggleFAQ` that follows `closeAllFAQItems` when the entry was closed. -/
def openTail (item : Item) : Completion Item :=
  andThen (openFAQItem item) fun item1 =>
    andThen (setAriaExpanded true item1) trackFAQInteraction

/-- The whole of `toggleFAQ` on the toggled item when the entry was open. -/
def closeTail (item : Item) : Completion Item :=
  andThen (closeFAQItem item) fun item1 =>
    andThen (setAriaExpanded false item1) trackFAQInteraction

/-- The item has its toggle indicator, and its `open` class agrees with the
`active` class of its answer. -/
def Item.Sound (item : Item) : Prop :=
  item.toggle.isSome = true ∧ item.openClass = item.isOpen

/-- Every item of the panel is sound. -/
def Panel.Sound (s : Panel) : Prop :=
  ∀ item ∈ s.items, item.Sound

/-- Every entry of the panel is closed: no answer is active and no item
carries the `open` class. -/
def Panel.AllClosed (s : Panel) : Prop :=
  ∀ item ∈ s.items, item.isOpen = false ∧ item.openClass = false

/-- Every item of the panel has the toggle indicator of the markup contract. -/
def Panel.HasToggles (s : Panel) : Prop :=
  ∀ item ∈ s.items, item.toggle.isSome = true

/-- The document after a sequence of `toggleFAQ` calls on the items at the
given positions. -/
def toggleAll : List Nat → Panel → Panel
  | [], s => s
  | i :: is, s => toggleAll is (toggleFAQ s i).state

/-- An entry with all its parts, closed or open, for the examples. -/
def demoItem (category : Option String) (isOpen : Bool) (q a : String) : Item :=
  { openClass := isOpen, display := Display.unset, category := category, dataIndex := none,
    question := some { ariaExpanded := some isOpen, h4 := some [Node.text q.toList] },
    answer := some { active := isOpen, maxHeight := some (if isOpen then 30 else 0),
                     transition := isOpen, scrollHeight := 30, content := [Node.text a.toList] },
    toggle := some { active := isOpen } }

/-- Three entries tagged `general`, `events`, `general`; the second one is open. -/
def demoThree : Panel :=
  { items :=
      [ demoItem (some "general") false "When do we meet?" "On Fridays.",
        demoItem (some "events") true "Is there a hackathon?" "In spring.",
        demoItem (some "general") false "Who can join?" "Every student." ],
    hasContainer := true, hasSearchContainer := true, noResults := none, resultsCount := none }

/-- Two entries, both shown (as an empty search leaves them); the first one
mentions `C++`. -/
def demoCpp : Panel :=
  { items :=
      [ { demoItem (some "general") false "Do you teach C++?" "Yes." with
            display := Display.block },
        { demoItem (some "general") false "Other" "None" with display := Display.block } ],
    hasContainer := true, hasSearchContainer := true, noResults := none, resultsCount := none }

/-- An entry that `initFAQ` makes interactive although it has no toggle
indicator. -/
def demoNoToggle : Item :=
  { demoItem none false "Who can join?" "Every student." with toggle := none }

/-- An entry that `initFAQ` makes interactive although its question has no `h4`. -/
def demoNoHeading : Item :=
  { demoItem none false "" "Every student." with
      question := some { ariaExpanded := none, h4 := none } }

/-- A text node, unless the text is empty. -/
def textNode (s : Text) : Content :=
  if s = [] then [] else [Node.text s]

/-- Following the claim on highlighting: the children in which exactly the
left-to-right, non-overlapping, case-insensitive occurrences of `term`, taken
as a literal string, are marked. `pending` is the unmarked text read so far. -/
def markLiteralLoop (term : Text) : Nat → Text → Text → Content
  | 0, _, pending => textNode pending
  | _ + 1, [], pending => textNode pending
  | fuel + 1, c :: cs, pending =>
    if term ≠ [] ∧ toLowerCase ((c :: cs).take term.length) = toLowerCase term then
      textNode pending ++ Node.mark ((c :: cs).take term.length) ::
        markLiteralLoop term fuel ((c :: cs).drop term.length) []
    else markLiteralLoop term fuel cs (pending ++ [c])

/-- Following the claim on highlighting: `text` with the literal occurrences of
`term` marked. -/
def markLiteral (term : Text) (text : Text) : Content :=
  markLiteralLoop term text.length text []

/-- The entry is closed as `closeFAQItem` leaves it: no open marker is set and
the answer, if there is one, is collapsed to height zero. -/
def Item.AlreadyClosed (item : Item) : Prop :=
  item.fullyClosed = true ∧ ∀ answer, item.answer = some answer → answer.maxHeight = some 0

/-- The entry is open as `openFAQItem` leaves it: all open markers are set and
the answer is expanded to its natural height. -/
def Item.AlreadyOpen (item : Item) : Prop :=
  item.fullyOpen = true ∧
    ∀ answer, item.answer = some answer → answer.maxHeight = some answer.scrollHeight

/-- The state markers and the height of an entry. -/
def Item.observable (item : Item) : Bool × Bool × Bool × Option (Option Nat) :=
  (item.isOpen, item.toggleActive, item.openClass, item.answer.map Answer.maxHeight)

/-- The markers are those of sound items. -/
def SoundMarkers (ms : List (Bool × Bool × Bool × Bool)) : Prop :=
  ∀ m ∈ ms, m.2.1 = true ∧ m.1 = m.2.2.1

/-- What the accordion reads and writes of an item: the `open` class, the toggle
indicator, the classes and styles of the answer, and `aria-expanded`. -/
def accordionView (item : Item) :
    Bool × Option Toggle × Option (Bool × Option Nat × Bool × Nat) × Option (Option Bool) :=
  (item.openClass, item.toggle,
    item.answer.map (fun a => (a.active, a.maxHeight, a.transition, a.scrollHeight)),
    item.question.map (fun q => q.ariaExpanded))

/-- Everything of an item but the children of its heading and of its answer. -/
def shell (item : Item) :
    Display × Option String × Option Nat ×
      (Bool × Option Toggle × Option (Bool × Option Nat × Bool × Nat) × Option (Option Bool)) :=
  (item.display, item.category, item.dataIndex, accordionView item)

/-- The test of `searchFAQ` on an item: whether the term occurs in the
lower-cased text of its heading or of its answer. -/
def searchPredicate (searchTerm : Text) (item : Item) : Bool :=
  match item.heading, item.answer with
  | some h4, some answer => matchesTerm searchTerm h4 answer
  | _, _ => false

/-- The test of `filterFAQByCategory` on an item. -/
def categoryPredicate (category : String) (item : Item) : Bool :=
  decide (category = "all" ∨ item.category = some category)

/-- The two-entry panel of the examples: both entries closed, with all their
parts, tagged `general` and `events`. -/
def demoPanel : Panel :=
  { items :=
      [ { openClass := false, display := Display.unset, category := some "general",
          dataIndex := some 0,
          question := some { ariaExpanded := some false, h4 := some [Node.text "Why ABC?".toList] },
          answer := some { active := false, maxHeight := some 0, transition := false,
                           scrollHeight := 40, content := [Node.text "Because.".toList] },
          toggle := some { active := false } },
        { openClass := false, display := Display.unset, category := some "events",
          dataIndex := some 1,
          question := some { ariaExpanded := some false, h4 := some [Node.text "Other".toList] },
          answer := some { active := false, maxHeight := some 0, transition := false,
                           scrollHeight := 25, content := [Node.text "None".toList] },
          toggle := some { active := false } } ],
    hasContainer := true, hasSearchContainer := true, noResults := none, resultsCount := none }

/-- What `closeAllFAQItems` does to one item. -/
def closeIfOpen (item : Item) : Completion Item :=
  if item.openClass then closeFAQItem item else .returned item

/-! ## Search on every host

The search once more, this time with the three services of the host taken as
parameters, so that it has an outcome for every term and every text: the
lower-casing of a string, the replacement that wraps the matches of
`new RegExp(term, 'gi')` in markers (or the `SyntaxError` of the constructor),
and the children an element has after an assignment to `innerHTML`. The
children are seen through `textContent` and the `<mark` test only, which is all
the script reads of them; the elements that the selectors of the script pick
up are taken to be those of the markup. -/

/-- The services of the host that the search calls. -/
structure Host where
  /-- `String.prototype.toLowerCase`. -/
  toLowerCase : Text → Text
  /-- `text.replace(new RegExp(term, 'gi'), match => markOpen + match + markClose)`
  for the term and the text given; `none` when `new RegExp` raises. -/
  replaceWithMarks : Text → Text → Option Text
  /-- The children of an element after `element.innerHTML = html`. -/
  parse : Text → Content

/-- One branch of `removeHighlighting` on a host. -/
def stripMarksOn (host : Host) (c : Content) : Content :=
  if hasMark c then host.parse (textContent c) else c

/-- `removeHighlighting(item)` on a host. -/
def removeHighlightingOn (host : Host) (item : Item) : Completion Item :=
  match item.heading with
  | none => .raised item
  | some h4 =>
    let item1 := item.setHeading (stripMarksOn host h4)
    match item1.answer with
    | none => .raised item1
    | some answer => .returned (item1.setAnswerContent (stripMarksOn host answer.content))

/-- One branch of `highlightSearchTerms` on a host. -/
def highlightOn (host : Host) (searchTerm : Text) (c : Content) : Completion Content :=
  if includes (host.toLowerCase (textContent c)) searchTerm then
    match host.replaceWithMarks searchTerm (textContent c) with
    | none => .raised c
    | some html => .returned (host.parse html)
  else .returned c

/-- `highlightSearchTerms(item, searchTerm)` on a host. -/
def highlightSearchTermsOn (host : Host) (item : Item) (searchTerm : Text) : Completion Item :=
  match removeHighlightingOn host item with
  | .raised item1 => .raised item1
  | .returned item1 =>
    match item1.heading, item1.answer with
    | some h4, some answer =>
      match highlightOn host searchTerm h4 with
      | .raised _ => .raised item1
      | .returned h41 =>
        let item2 := item1.setHeading h41
        match highlightOn host searchTerm answer.content with
        | .raised _ => .raised item2
        | .returned content1 => .returned (item2.setAnswerContent content1)
    | _, _ => .raised item1

/-- The test of `searchFAQ` on a host, on an item whose heading and answer exist. -/
def matchesTermOn (host : Host) (searchTerm : Text) (h4 : Content) (answer : Answer) : Bool :=
  includes (host.toLowerCase (textContent h4)) searchTerm ||
    includes (host.toLowerCase (textContent answer.content)) searchTerm

/-- Put the item a callback left behind in front of the rest of the loop. -/
def consItemOn (item : Item) (c : Completion (List Item × Bool)) :
    Completion (List Item × Bool) :=
  c.map fun (items, hasResults) => (item :: items, hasResults)

/-- The `forEach` of `searchFAQ` on a host, with the `hasResults` flag. -/
def searchLoopOn (host : Host) (searchTerm : Text) :
    List Item → Bool → Completion (List Item × Bool)
  | [], hasResults => .returned ([], hasResults)
  | item :: rest, hasResults =>
    match item.heading, item.answer with
    | some h4, some answer =>
      if matchesTermOn host searchTerm h4 answer then
        let item1 := { item with display := Display.block }
        if searchTerm ≠ [] then
          match highlightSearchTermsOn host item1 searchTerm with
          | .raised item2 => .raised (item2 :: rest, true)
          | .returned item2 => consItemOn item2 (searchLoopOn host searchTerm rest true)
        else consItemOn item1 (searchLoopOn host searchTerm rest true)
      else
        consItemOn { item with display := Display.none }
          (searchLoopOn host searchTerm rest hasResults)
    | _, _ => .raised (item :: rest, hasResults)

/-- `searchFAQ(searchTerm)` on a host. -/
def searchFAQOn (host : Host) (searchTerm : Text) (s : Panel) : Completion Panel :=
  match searchLoopOn host searchTerm s.items false with
  | .raised (items, _) => .raised { s with items := items }
  | .returned (items, hasResults) =>
    .returned
      (updateSearchResultsCount searchTerm
        (showNoResultsMessage hasResults searchTerm { s with items := items }))

/-- The `forEach` of `clearFAQSearch` on a host. -/
def clearLoopOn (host : Host) : List Item → Completion (List Item)
  | [] => .returned []
  | item :: rest =>
    match removeHighlightingOn host { item with display := Display.block } with
    | .raised item1 => .raised (item1 :: rest)
    | .returned item1 => (clearLoopOn host rest).map fun rest1 => item1 :: rest1

/-- `clearFAQSearch()` on a host. -/
def clearFAQSearchOn (host : Host) (s : Panel) : Completion Panel :=
  match clearLoopOn host s.items with
  | .raised items => .raised { s with items := items }
  | .returned items =>
    .returned (resetSearchResultsCount (hideNoResultsMessage { s with items := items }))

/-- The outcome of one exported call on a host. -/
def FaqOp.runOn (host : Host) : FaqOp → Panel → Completion Panel
  | .toggle i, s => toggleFAQ s i
  | .openItem i, s => onItem s i openFAQItem
  | .close i, s => onItem s i closeFAQItem
  | .openAll, s => expandAllFAQ s
  | .closeAll, s => collapseAllFAQ s
  | .search term, s => searchFAQOn host term s
  | .clearSearch, s => clearFAQSearchOn host s
  | .filterByCategory category, s => filterFAQByCategory category s

/-- The document after a sequence of exported calls on a host, each made on the
document the previous one left behind, whether it returned or raised. -/
def runOpsOn (host : Host) : List FaqOp → Panel → Panel
  | [], s => s
  | op :: ops, s => runOpsOn host ops (op.runOn host s).state

/-- The test of `searchFAQ` on a host, on an item. -/
def searchPredicateOn (host : Host) (searchTerm : Text) (item : Item) : Bool :=
  match item.heading, item.answer with
  | some h4, some answer => matchesTermOn host searchTerm h4 answer
  | _, _ => false

/-- A host for the examples: it answers as the fragment modelled above does,
which is how a browser answers on the terms and texts of the examples. -/
def demoHost : Host :=
  { toLowerCase := toLowerCase
    replaceWithMarks := fun term text =>
      match newRegExp term with
      | some (.pattern atoms) => some (replaceWithMarks atoms text)
      | _ => none
    parse := fun html => (parseHTML html).getD [] }

/-- Two entries that `initFAQ` makes interactive although neither has a toggle
indicator, both closed. -/
def demoNoToggles : Panel :=
  { items := [demoNoToggle, demoNoToggle], hasContainer := true, hasSearchContainer := true,
    noResults := none, resultsCount := none }

/-! ## Export -/

/-- A record of the exported data. -/
structure Record where
  /-- The text of the heading. -/
  question : Text
  /-- The text of the answer. -/
  answer : Text
  /-- The category of the entry. -/
  category : String
  deriving Repr, DecidableEq

/-- `item.getAttribute('data-category') || 'General'`: an absent and an empty
attribute are both falsy. -/
def exportCategory (item : Item) : String :=
  match item.category with
  | some category => if category = "" then "General" else category
  | none => "General"

/-- The `forEach` of `exportFAQData`: the `data` array as built when the loop
ran to its end or raised on a missing heading or answer. -/
def exportLoop : List Item → Completion (List Record)
  | [] => .returned []
  | item :: rest =>
    match item.heading with
    | none => .raised []
    | some h4 =>
      match item.answer with
      | none => .raised []
      | some answer =>
        (exportLoop rest).map fun data =>
          { question := textContent h4, answer := textContent answer.content,
            category := exportCategory item } :: data

/-- `exportFAQData()`: the `data` array it serialises. The download it offers
is made through an element that is never attached to the document. -/
def exportFAQData (s : Panel) : Completion (List Record) :=
  exportLoop s.items

/-- The record of an entry that has its heading and its answer. -/
def Item.record (item : Item) : Record :=
  { question := textContent (item.heading.getD []),
    answer := textContent ((item.answer.map Answer.content).getD []),
    category := exportCategory item }

/-- An entry whose heading and answer are empty. -/
def demoEmpty : Item :=
  demoItem none false "" ""

/-- The `aria-expanded` flag of the question of an item. -/
def Item.ariaExpanded (item : Item) : Option Bool :=
  item.question.bind fun question => question.ariaExpanded

/-- The plain text of the heading and of the answer of an item. -/
def Item.texts (item : Item) : Option Text × Option Text :=
  (item.heading.map textContent, item.answer.map fun answer => textContent answer.content)

/-- Whether the heading and the answer of an item contain a highlight marker. -/
def Item.marks (item : Item) : Option Bool × Option Bool :=
  (item.heading.map hasMark, item.answer.map fun answer => hasMark answer.content)

/-- Every character of the text is copied by the HTML parser as it stands. -/
def PlainText (t : Text) : Prop :=
  ∀ c ∈ t, isPlain c = true

/-- The item has a heading and an answer, and their texts are plain. -/
def Item.Plain (item : Item) : Prop :=
  ∃ h4 answer, item.heading = some h4 ∧ item.answer = some answer ∧
    PlainText (textContent h4) ∧ PlainText (textContent answer.content)

end FAQ

/-! # Slideshow (`src/js/main.js`)

The state of the closure of `initSlideshow`: the slide count, the current
index, and what `updateSlideshow` writes. An index is a JavaScript number;
`none` stands for `NaN`, which `%` gives for a slideshow without slides. -/

namespace Main

open FAQ (Completion)

/-- The slideshow. -/
structure Slideshow where
  /-- The constant `totalSlides`: `slides.length`. -/
  totalSlides : Nat
  /-- The number of `.dot` elements. -/
  dotCount : Nat
  /-- Whether a `.slideshow-container` was found. -/
  hasContainer : Bool
  /-- The variable `currentSlide`. -/
  currentSlide : Option Int
  /-- The `X` of the last valid `translateX(-X%)` written to the container. -/
  offset : Option Nat
  /-- For every dot, whether it carries the `active` class. -/
  activeDots : List Bool
  /-- For every slide, whether it carries the `fade-in` class. -/
  fadeIn : List Bool
  deriving Repr, DecidableEq

/-- The operator `%` on integers: the remainder has the sign of the dividend,
and a zero divisor gives `NaN`. -/
def jsMod (a : Int) (n : Nat) : Option Int :=
  if n = 0 then none else some (a.tmod n)

/-- `updateSlideshow()`. A transform built from `NaN` or from a negative index
is not a valid value and leaves the style as it was. -/
def updateSlideshow (s : Slideshow) : Completion Slideshow :=
  if !s.hasContainer then .raised s
  else
    .returned { s with
      offset :=
        match s.currentSlide with
        | some (Int.ofNat i) => some (i * 100)
        | _ => s.offset
      activeDots := (List.range s.dotCount).map fun index =>
        decide (s.currentSlide = some (index : Int))
      fadeIn := (List.range s.totalSlides).map fun index =>
        decide (s.currentSlide = some (index : Int)) }

/-- `nextSlide()`. -/
def nextSlide (s : Slideshow) : Completion Slideshow :=
  updateSlideshow { s with
    currentSlide := s.currentSlide.bind fun i => jsMod (i + 1) s.totalSlides }

/-- `prevSlide()`. -/
def prevSlide (s : Slideshow) : Completion Slideshow :=
  updateSlideshow { s with
    currentSlide := s.currentSlide.bind fun i => jsMod (i - 1 + s.totalSlides) s.totalSlides }

/-- `goToSlide(index)`. -/
def goToSlide (index : Int) (s : Slideshow) : Completion Slideshow :=
  updateSlideshow { s with currentSlide := some index }

/-- A slideshow of four slides and four dots showing the slide `i`. -/
def demoShow (i : Int) : Slideshow :=
  { totalSlides := 4, dotCount := 4, hasContainer := true, currentSlide := some i,
    offset := none, activeDots := [], fadeIn := [] }

end Main

/-! # Form validation (`src/js/formValidation.js`) -/

namespace Forms

open FAQ (Text)

/-- The class `\s` of a regular expression, which is also what `trim` removes:
white space and line terminators. -/
def isWhiteSpace (c : Char) : Bool :=
  let n := c.toNat
  n == 9 || n == 10 || n == 11 || n == 12 || n == 13 || n == 32 || n == 0xA0 ||
    n == 0x1680 || (0x2000 ≤ n && n ≤ 0x200A) || n == 0x2028 || n == 0x2029 ||
    n == 0x202F || n == 0x205F || n == 0x3000 || n == 0xFEFF

/-- `String.prototype.trim`. -/
def trim (s : Text) : Text :=
  ((s.dropWhile isWhiteSpace).reverse.dropWhile isWhiteSpace).reverse

/-- `s.length`: the number of UTF-16 code units. -/
def jsLength (s : Text) : Nat :=
  (s.map fun c => if c.toNat < 0x10000 then 1 else 2).sum

/-- A term of an anchored regular expression: a character class repeated at
least `min` and, when `max` is given, at most `max` times. -/
structure Piece where
  /-- The character class. -/
  cls : Char → Bool
  /-- The least number of repetitions. -/
  min : Nat
  /-- The greatest number of repetitions, if bounded. -/
  max : Option Nat

/-- Whether the bound allows one more repetition. -/
def canTake : Option Nat → Bool
  | some 0 => false
  | _ => true

/-- The bound after one repetition. -/
def lessOne : Option Nat → Option Nat
  | some (k + 1) => some k
  | m => m

/-- What can remain of the text after the piece has matched at its start: one
remainder for every admissible number of repetitions. -/
def remainders (cls : Char → Bool) : Nat → Option Nat → Text → List Text
  | 0, _, [] => [[]]
  | 0, max, c :: cs =>
    (c :: cs) :: (if cls c && canTake max then remainders cls 0 (lessOne max) cs else [])
  | _ + 1, _, [] => []
  | min + 1, max, c :: cs =>
    if cls c && canTake max then remainders cls min (lessOne max) cs else []

/-- `regex.test(s)` for the regular expression `^p1 p2 ... pn$`: the pieces
match the whole of the text, one after the other. -/
def matchPieces : List Piece → Text → Bool
  | [], s => s.isEmpty
  | p :: ps, s => (remainders p.cls p.min p.max s).any (matchPieces ps)

/-- The number of repetitions `k` respects the upper bound. -/
def within (max : Option Nat) (k : Nat) : Prop :=
  ∀ m, max = some m → k ≤ m

/-- The class `[^\s@]`. -/
def notSpaceOrAt (c : Char) : Bool :=
  !(isWhiteSpace c || c == '@')

/-- The class `\d`. -/
def isDigit (c : Char) : Bool :=
  '0' ≤ c && c ≤ '9'

/-- The expression `/^[^\s@]+@[^\s@]+\.[^\s@]+$/`. -/
def emailRegex : List Piece :=
  [ { cls := notSpaceOrAt, min := 1, max := none },
    { cls := fun c => c == '@', min := 1, max := some 1 },
    { cls := notSpaceOrAt, min := 1, max := none },
    { cls := fun c => c == '.', min := 1, max := some 1 },
    { cls := notSpaceOrAt, min := 1, max := none } ]

/-- `validateEmail(email)`. -/
def validateEmail (email : Text) : Bool :=
  matchPieces emailRegex email

/-- The expression `/^\d{8,10}$/`. -/
def studentIdRegex : List Piece :=
  [ { cls := isDigit, min := 8, max := some 10 } ]

/-- `validateStudentId(studentId)`. -/
def validateStudentId (studentId : Text) : Bool :=
  matchPieces studentIdRegex studentId

/-- The expression `/^[\+]?[1-9][\d]{0,15}$/`. -/
def phoneRegex : List Piece :=
  [ { cls := fun c => c == '+', min := 0, max := some 1 },
    { cls := fun c => '1' ≤ c && c ≤ '9', min := 1, max := some 1 },
    { cls := isDigit, min := 0, max := some 15 } ]

/-- `validatePhone(phone)`: the test runs on the phone number without the
characters of `[\s\-\(\)]`. -/
def validatePhone (phone : Text) : Bool :=
  matchPieces phoneRegex
    (phone.filter fun c => !(isWhiteSpace c || c == '-' || c == '(' || c == ')'))

/-- The value of a digit in the given radix, if the character is one. -/
def digitValue (radix : Nat) (c : Char) : Option Nat :=
  let v :=
    if '0' ≤ c && c ≤ '9' then some (c.toNat - '0'.toNat)
    else if 'a' ≤ c && c ≤ 'z' then some (c.toNat - 'a'.toNat + 10)
    else if 'A' ≤ c && c ≤ 'Z' then some (c.toNat - 'A'.toNat + 10)
    else none
  v.bind fun d => if d < radix then some d else none

/-- The number read from the longest prefix of digits, together with whether a
digit was read at all. -/
def readDigits (radix : Nat) : Text → Nat → Bool → Nat × Bool
  | [], acc, seen => (acc, seen)
  | c :: cs, acc, seen =>
    match digitValue radix c with
    | some d => readDigits radix cs (acc * radix + d) true
    | none => (acc, seen)

/-- The magnitude `parseInt` reads after the sign: hexadecimal after `0x` or
`0X`, decimal otherwise; `none` is `NaN`. -/
def parseMagnitude (s : Text) : Option Nat :=
  let (radix, digits) :=
    match s with
    | '0' :: 'x' :: rest => (16, rest)
    | '0' :: 'X' :: rest => (16, rest)
    | _ => (10, s)
  match readDigits radix digits 0 false with
  | (n, true) => some n
  | (_, false) => none

/-- `parseInt(string)`: leading white space is skipped, a sign is read, and the
longest prefix of digits gives the number; `none` is `NaN`. The number is kept
exact; a double rounds it only beyond 2^53, far from any year it is compared
with. -/
def parseInt (s : Text) : Option Int :=
  match s.dropWhile isWhiteSpace with
  | '-' :: rest => (parseMagnitude rest).map fun n => -(n : Int)
  | '+' :: rest => (parseMagnitude rest).map fun n => (n : Int)
  | rest => (parseMagnitude rest).map fun n => (n : Int)

/-- `validateGraduationYear(year)`, where `currentYear` is what
`new Date().getFullYear()` gives. A comparison with `NaN` is false. -/
def validateGraduationYear (currentYear : Int) (year : Text) : Bool :=
  match parseInt year with
  | none => false
  | some yearNum => decide (yearNum ≥ currentYear) && decide (yearNum ≤ currentYear + 6)

/-- The character of a decimal digit. -/
def digitChar (d : Nat) : Char :=
  Char.ofNat (d + '0'.toNat)

/-- The decimal digits of a number, most significant first. -/
def decimalDigits (n : Nat) : Text :=
  if n = 0 then ['0'] else (Nat.digits 10 n).reverse.map digitChar

/-- Following the claim on the graduation year: the input is a number, that
is, a decimal numeral with an optional minus sign and nothing else. -/
def isNumber (s : Text) : Bool :=
  match s with
  | '-' :: rest => !rest.isEmpty && rest.all isDigit
  | _ => !s.isEmpty && s.all isDigit

/-- The decimal numeral of an integer. -/
def decimal (y : Int) : Text :=
  match y with
  | Int.ofNat n => decimalDigits n
  | Int.negSucc n => '-' :: decimalDigits (n + 1)

/-- The `type` of a form control, as far as `validateField` tells types apart. -/
inductive FieldType where
  /-- The type `email`. -/
  | email
  /-- The type `tel`. -/
  | tel
  /-- The type `url`. -/
  | url
  /-- Any other type. -/
  | other
  deriving Repr, DecidableEq

/-- A form control, in a parent of its own. -/
structure Field where
  /-- The `id`. -/
  id : String
  /-- The `type`. -/
  type : FieldType
  /-- The `value`. -/
  value : Text
  /-- Whether the control has the `required` attribute. -/
  required : Bool
  /-- Whether `classList` contains `error`. -/
  errorClass : Bool
  /-- The text of the `.error-message` element in the parent, if there is one. -/
  errorMessage : Option String
  deriving Repr, DecidableEq

/-- `clearFieldError(field)`. -/
def clearFieldError (field : Field) : Field :=
  { field with errorClass := false, errorMessage := none }

/-- `showFieldError(field, message)`. -/
def showFieldError (field : Field) (message : String) : Field :=
  { clearFieldError field with errorClass := true, errorMessage := some message }

/-- `validateRequired(field)`: the result and the field as it is left. -/
def validateRequired (field : Field) : Bool × Field :=
  if trim field.value = [] then (false, showFieldError field "This field is required")
  else (true, field)

/-- `validateField(field)`: the result and the field as it is left.
`urlParses` is the host's `new URL(url)` not raising, and `currentYear` the
year of the host's clock. -/
def validateField (urlParses : Text → Bool) (currentYear : Int) (field : Field) :
    Bool × Field :=
  let fieldValue := trim field.value
  let field0 := clearFieldError field
  if field.required && !(validateRequired field0).1 then (false, (validateRequired field0).2)
  else if field.type = FieldType.email ∧ fieldValue ≠ [] ∧ validateEmail fieldValue = false then
    (false, showFieldError field0 "Please enter a valid email address")
  else if field.type = FieldType.tel ∧ fieldValue ≠ [] ∧ validatePhone fieldValue = false then
    (false, showFieldError field0 "Please enter a valid phone number")
  else if field.type = FieldType.url ∧ fieldValue ≠ [] ∧ urlParses fieldValue = false then
    (false, showFieldError field0 "Please enter a valid URL")
  else if field.id = "student-id" ∧ fieldValue ≠ [] ∧ validateStudentId fieldValue = false then
    (false, showFieldError field0 "Student ID must be 8-10 digits")
  else if field.id = "graduation-year" ∧ fieldValue ≠ [] ∧
      validateGraduationYear currentYear fieldValue = false then
    (false, showFieldError field0 "Please select a valid graduation year")
  else if field.id = "message" ∧ fieldValue ≠ [] ∧ jsLength fieldValue < 10 then
    (false, showFieldError field0 "Message must be at least 10 characters long")
  else (true, field0)

/-- The controls of the contact form that `validateContactForm` looks up by id. -/
structure ContactForm where
  /-- The control `#name`. -/
  name : Option Field
  /-- The control `#email`. -/
  email : Option Field
  /-- The control `#subject`. -/
  subject : Option Field
  /-- The control `#message`. -/
  message : Option Field
  deriving Repr, DecidableEq

/-- One round of the loop over `requiredFields`: `validateRequired` on the
control if it exists. -/
def requiredStep (field : Option Field) : Bool × Option Field :=
  match field with
  | none => (true, none)
  | some f => ((validateRequired f).1, some (validateRequired f).2)

/-- The check of the email control in `validateContactForm`. -/
def emailStep (field : Option Field) : Bool × Option Field :=
  match field with
  | none => (true, none)
  | some f =>
    if validateEmail f.value then (true, some f)
    else (false, some (showFieldError f "Please enter a valid email address"))

/-- The check of the message control in `validateContactForm`. -/
def messageStep (field : Option Field) : Bool × Option Field :=
  match field with
  | none => (true, none)
  | some f =>
    if jsLength f.value < 10 then
      (false, some (showFieldError f "Message must be at least 10 characters long"))
    else (true, some f)

/-- `validateContactForm()`: the result and the form as it is left. -/
def validateContactForm (form : ContactForm) : Bool × ContactForm :=
  let name := requiredStep form.name
  let email := requiredStep form.email
  let subject := requiredStep form.subject
  let message := requiredStep form.message
  let email1 := emailStep email.2
  let message1 := messageStep message.2
  (name.1 && email.1 && subject.1 && message.1 && email1.1 && message1.1,
    { name := name.2, email := email1.2, subject := subject.2, message := message1.2 })

/-- ASCII white space, as the value sanitization of a control strips it. -/
def isAsciiWhitespace (c : Char) : Bool :=
  c == '\t' || c == '\n' || c == Char.ofNat 12 || c == '\r' || c == ' '

/-- The value sanitization of a control of type `email`: line breaks are
removed and ASCII white space is stripped from both ends, so the `value` the
script reads never starts or ends with a space. -/
def sanitizeEmail (value : Text) : Text :=
  (((value.filter fun c => !(c == '\n' || c == '\r')).dropWhile
    isAsciiWhitespace).reverse.dropWhile isAsciiWhitespace).reverse

/-- A required control of the contact form holding what the user typed; a
control of type `email` reports the sanitized value. -/
def contactField (id : String) (type : FieldType) (typed : String) : Field :=
  { id := id, type := type,
    value := if type = FieldType.email then sanitizeEmail typed.toList else typed.toList,
    required := true, errorClass := false, errorMessage := none }

/-- A contact form with the four controls, all required. -/
def contactForm (name email subject message : String) : ContactForm :=
  { name := some (contactField "name" FieldType.other name),
    email := some (contactField "email" FieldType.email email),
    subject := some (contactField "subject" FieldType.other subject),
    message := some (contactField "message" FieldType.other message) }

end Forms

namespace FAQ

/-! ## Lemmas on the accordion -/

theorem forEachItem_of_returned (f : Item → Completion Item) (l : List Item)
    (h : ∀ item ∈ l, (f item).isReturned = true) :
    forEachItem f l = .returned (l.map fun item => (f item).state) := by
  induction l with
  | nil => rfl
  | cons a l ih =>
    have ha := h a (List.mem_cons_self a l)
    have hl := ih fun item hi => h item (List.mem_cons_of_mem a hi)
    cases hfa : f a with
    | returned a1 => simp [forEachItem, hfa, hl, Completion.map, Completion.state]
    | raised a1 => simp [hfa, Completion.isReturned] at ha

theorem closeIfOpen_returned (item : Item) (h : item.Sound) :
    (closeIfOpen item).isReturned = true := by
  obtain ⟨ht, ho⟩ := h
  unfold closeIfOpen closeFAQItem
  cases hc : item.openClass with
  | false => simp [Completion.isReturned]
  | true =>
    cases ha : item.answer with
    | none => simp [Item.isOpen, ha, hc] at ho
    | some answer =>
      cases htg : item.toggle with
      | none => simp [htg] at ht
      | some toggle => simp [Completion.isReturned]

theorem closeIfOpen_markers (item : Item) (h : item.Sound) :
    markers (closeIfOpen item).state = collapse (markers item) := by
  obtain ⟨ht, ho⟩ := h
  unfold closeIfOpen closeFAQItem
  cases hc : item.openClass with
  | false =>
    rw [hc] at ho
    simp [Completion.state, markers, collapse, hc, ht, ← ho]
  | true =>
    cases ha : item.answer with
    | none => simp [Item.isOpen, ha, hc] at ho
    | some answer =>
      cases htg : item.toggle with
      | none => simp [htg] at ht
      | some toggle => simp [Completion.state, markers, collapse, Item.isOpen, ha]

theorem closeIfOpen_display (item : Item) :
    (closeIfOpen item).state.display = item.display ∧
      (closeIfOpen item).state.category = item.category := by
  unfold closeIfOpen closeFAQItem
  cases item.openClass <;> cases item.answer <;> cases item.toggle <;>
    simp [Completion.state]

theorem closeAllFAQItems_eq (s : Panel) (h : s.Sound) :
    closeAllFAQItems s =
      .returned { s with items := s.items.map fun item => (closeIfOpen item).state } := by
  have := forEachItem_of_returned closeIfOpen s.items
    (fun item hi => closeIfOpen_returned item (h item hi))
  unfold closeIfOpen at this
  simp only [closeAllFAQItems, this, Completion.map]
  rfl

theorem closeAllFAQItems_markers (s : Panel) (h : s.Sound) :
    ∃ s0, closeAllFAQItems s = .returned s0 ∧ s0.markers = s.markers.map collapse := by
  refine ⟨_, closeAllFAQItems_eq s h, ?_⟩
  simp only [Panel.markers, List.map_map]
  apply List.map_congr_left
  intro item hi
  exact closeIfOpen_markers item (h item hi)

theorem onItem_state_items (s : Panel) (i : Nat) (f : Item → Completion Item) :
    (onItem s i f).state.items =
      match s.items[i]? with
      | some item => s.items.set i (f item).state
      | none => s.items := by
  unfold onItem
  cases hi : s.items[i]? with
  | none => rfl
  | some item => cases hf : f item <;> simp [hf, Completion.map, Completion.state]

theorem onItem_andThen (s : Panel) (i : Nat) (f g : Item → Completion Item) :
    andThen (onItem s i f) (fun s1 => onItem s1 i g) =
      onItem s i (fun item => andThen (f item) g) := by
  unfold onItem
  cases hi : s.items[i]? with
  | none => rfl
  | some item =>
    have hlt : i < s.items.length := by
      rcases List.getElem?_eq_some.mp hi with ⟨h, _⟩
      exact h
    cases hf : f item with
    | raised a => simp [andThen, Completion.map, hf]
    | returned a =>
      cases hg : g a <;>
        simp [andThen, Completion.map, hf, hg, List.getElem?_set, hlt, List.set_set]

theorem toggleFAQ_eq (s : Panel) (i : Nat) (item : Item) (answer : Answer)
    (hi : s.items[i]? = some item) (ha : item.answer = some answer) :
    toggleFAQ s i =
      if answer.active then onItem s i closeTail
      else andThen (closeAllFAQItems s) fun s0 => onItem s0 i openTail := by
  unfold toggleFAQ
  simp only [hi, ha]
  cases hact : answer.active with
  | true =>
    simp only [if_true, Bool.not_true]
    rw [show (fun s1 => andThen (onItem s1 i (setAriaExpanded false))
          fun s2 => onItem s2 i trackFAQInteraction) =
        fun s1 => onItem s1 i (fun it => andThen (setAriaExpanded false it) trackFAQInteraction)
      from funext fun s1 => onItem_andThen s1 i _ _]
    rw [onItem_andThen]
    rfl
  | false =>
    simp only [Bool.false_eq_true, if_false, Bool.not_false]
    congr 1
    funext s0
    rw [show (fun s1 => andThen (onItem s1 i (setAriaExpanded true))
          fun s2 => onItem s2 i trackFAQInteraction) =
        fun s1 => onItem s1 i (fun it => andThen (setAriaExpanded true it) trackFAQInteraction)
      from funext fun s1 => onItem_andThen s1 i _ _]
    rw [onItem_andThen]
    rfl

theorem closeTail_markers (item : Item) (answer : Answer) (h : item.toggle.isSome = true)
    (ha : item.answer = some answer) :
    markers (closeTail item).state = (false, true, false, true) := by
  cases htg : item.toggle with
  | none => simp [htg] at h
  | some toggle =>
    unfold closeTail closeFAQItem setAriaExpanded trackFAQInteraction
    simp only [ha, htg, andThen]
    cases hq : item.question with
    | none => simp [Completion.state, markers, Item.isOpen]
    | some question =>
      cases hh : question.h4 <;> simp [Completion.state, markers, Item.isOpen, hh]

theorem openTail_markers (item : Item) (answer : Answer) (h : item.toggle.isSome = true)
    (ha : item.answer = some answer) :
    markers (openTail item).state = (true, true, true, true) := by
  cases htg : item.toggle with
  | none => simp [htg] at h
  | some toggle =>
    unfold openTail openFAQItem setAriaExpanded trackFAQInteraction
    simp only [ha, htg, andThen]
    cases hq : item.question with
    | none => simp [Completion.state, markers, Item.isOpen]
    | some question =>
      cases hh : question.h4 <;> simp [Completion.state, markers, Item.isOpen, hh]

theorem toggleFAQ_markers (s : Panel) (h : s.Sound) (i : Nat) :
    (toggleFAQ s i).state.markers = toggleMarkers s.markers i := by
  cases hi : s.items[i]? with
  | none =>
    have hm : s.markers[i]? = none := by simp [Panel.markers, hi]
    simp [toggleFAQ, hi, toggleMarkers, hm, Completion.state]
  | some item =>
    have hmem : item ∈ s.items := List.mem_iff_getElem?.mpr ⟨i, hi⟩
    have hs := h item hmem
    cases ha : item.answer with
    | none =>
      have hm : s.markers[i]? = some (item.openClass, item.toggle.isSome, false, false) := by
        simp [Panel.markers, hi, markers, Item.isOpen, ha]
      simp [toggleFAQ, hi, ha, toggleMarkers, hm, Completion.state]
    | some answer =>
      have hm : s.markers[i]? =
          some (item.openClass, item.toggle.isSome, answer.active, true) := by
        simp [Panel.markers, hi, markers, Item.isOpen, ha]
      rw [toggleFAQ_eq s i item answer hi ha]
      simp only [toggleMarkers, hm]
      cases hact : answer.active with
      | true =>
        simp only [if_true]
        simp only [Panel.markers, onItem_state_items, hi, List.map_set]
        rw [closeTail_markers item answer hs.1 ha]
      | false =>
        simp only [Bool.false_eq_true, if_false]
        rw [closeAllFAQItems_eq s h]
        simp only [andThen]
        have hi0 : (s.items.map fun item => (closeIfOpen item).state)[i]? =
            some (closeIfOpen item).state := by
          simp [hi]
        have hm0 := closeIfOpen_markers item hs
        have htg0 : (closeIfOpen item).state.toggle.isSome = true := by
          have := congrArg (fun m => m.2.1) hm0
          simpa [markers, collapse] using this
        have han0 : (closeIfOpen item).state.answer.isSome = true := by
          have := congrArg (fun m => m.2.2.2) hm0
          simpa [markers, collapse, ha] using this
        obtain ⟨answer0, hans0⟩ := Option.isSome_iff_exists.mp han0
        simp only [Panel.markers, onItem_state_items, hi0, List.map_set, List.map_map]
        rw [openTail_markers _ answer0 htg0 hans0]
        congr 1
        apply List.map_congr_left
        intro a hmem_a
        exact closeIfOpen_markers a (h a hmem_a)

theorem sound_iff_markers (s : Panel) : s.Sound ↔ SoundMarkers s.markers := by
  simp only [Panel.Sound, SoundMarkers, Panel.markers, List.mem_map]
  constructor
  · rintro h m ⟨item, hi, rfl⟩
    exact h item hi
  · intro h item hi
    exact h (markers item) ⟨item, hi, rfl⟩

theorem openCount_eq_markers (s : Panel) :
    openCount s = s.markers.countP fun m => m.2.2.1 := by
  rw [openCount, Panel.markers, List.countP_map, List.countP_eq_length_filter]
  rfl

theorem countP_set_le {α : Type} (p : α → Bool) (x : α) (l : List α) (i : Nat) :
    (l.set i x).countP p ≤ l.countP p + (if p x then 1 else 0) := by
  induction l generalizing i with
  | nil => simp
  | cons a l ih =>
    cases i with
    | zero =>
      simp only [List.set_cons_zero, List.countP_cons]
      split <;> split <;> omega
    | succ i =>
      simp only [List.set_cons_succ, List.countP_cons]
      have := ih i
      omega

theorem countP_collapse (ms : List (Bool × Bool × Bool × Bool)) :
    (ms.map collapse).countP (fun m => m.2.2.1) = 0 := by
  rw [List.countP_eq_zero]
  intro m hm
  obtain ⟨m0, _, rfl⟩ := List.mem_map.mp hm
  simp [collapse]

theorem soundMarkers_set (ms : List (Bool × Bool × Bool × Bool)) (i : Nat)
    (x : Bool × Bool × Bool × Bool) (h : SoundMarkers ms) (hx : x.2.1 = true ∧ x.1 = x.2.2.1) :
    SoundMarkers (ms.set i x) := by
  intro m hm
  rcases List.mem_or_eq_of_mem_set hm with hm | rfl
  · exact h m hm
  · exact hx

theorem soundMarkers_collapse (ms : List (Bool × Bool × Bool × Bool)) :
    SoundMarkers (ms.map collapse) := by
  intro m hm
  obtain ⟨m0, _, rfl⟩ := List.mem_map.mp hm
  simp [collapse]

theorem toggleMarkers_sound (ms : List (Bool × Bool × Bool × Bool)) (i : Nat)
    (h : SoundMarkers ms) : SoundMarkers (toggleMarkers ms i) := by
  unfold toggleMarkers
  split
  · split
    · exact soundMarkers_set ms i _ h (by simp)
    · exact soundMarkers_set _ i _ (soundMarkers_collapse ms) (by simp)
  · exact h

theorem toggleMarkers_count (ms : List (Bool × Bool × Bool × Bool)) (i : Nat)
    (h : ms.countP (fun m => m.2.2.1) ≤ 1) :
    (toggleMarkers ms i).countP (fun m => m.2.2.1) ≤ 1 := by
  unfold toggleMarkers
  split
  · split
    · have := countP_set_le (fun m : Bool × Bool × Bool × Bool => m.2.2.1)
        (false, true, false, true) ms i
      simp only [Bool.false_eq_true, if_false] at this
      omega
    · have := countP_set_le (fun m : Bool × Bool × Bool × Bool => m.2.2.1)
        (true, true, true, true) (ms.map collapse) i
      rw [countP_collapse] at this
      simpa using this
  · exact h

theorem toggleFAQ_sound (s : Panel) (h : s.Sound) (i : Nat) : (toggleFAQ s i).state.Sound := by
  rw [sound_iff_markers, toggleFAQ_markers s h]
  exact toggleMarkers_sound _ _ ((sound_iff_markers s).mp h)

theorem toggleFAQ_openCount (s : Panel) (h : s.Sound) (hc : openCount s ≤ 1) (i : Nat) :
    openCount (toggleFAQ s i).state ≤ 1 := by
  rw [openCount_eq_markers, toggleFAQ_markers s h]
  rw [openCount_eq_markers] at hc
  exact toggleMarkers_count _ _ hc

theorem sound_of_allClosed (s : Panel) (hc : s.AllClosed) (ht : s.HasToggles) : s.Sound := by
  intro item hi
  refine ⟨ht item hi, ?_⟩
  rw [(hc item hi).1, (hc item hi).2]

theorem openCount_of_allClosed (s : Panel) (hc : s.AllClosed) : openCount s = 0 := by
  unfold openCount
  rw [List.length_eq_zero, List.filter_eq_nil_iff]
  intro item hi
  simp [(hc item hi).1]

theorem toggleAll_inv (is : List Nat) (s : Panel) (h : s.Sound) (hc : openCount s ≤ 1) :
    (toggleAll is s).Sound ∧ openCount (toggleAll is s) ≤ 1 := by
  induction is generalizing s with
  | nil => exact ⟨h, hc⟩
  | cons i is ih =>
    exact ih _ (toggleFAQ_sound s h i) (toggleFAQ_openCount s h hc i)

theorem isOpen_getElem?_markers (s : Panel) (i : Nat) :
    (s.items[i]?).map Item.isOpen = (s.markers[i]?).map fun m => m.2.2.1 := by
  simp only [Panel.markers, List.getElem?_map, Option.map_map]
  rfl

theorem markers_of_closed_entry (s : Panel) (hclosed : s.AllClosed) (htoggles : s.HasToggles)
    (i : Nat) (h : (s.items[i]?.bind Item.answer).isSome = true) :
    s.markers[i]? = some (false, true, false, true) := by
  cases hi : s.items[i]? with
  | none => simp [hi] at h
  | some item =>
    have hmem : item ∈ s.items := List.mem_iff_getElem?.mpr ⟨i, hi⟩
    have hc := hclosed item hmem
    have ht := htoggles item hmem
    simp only [hi, Option.some_bind] at h
    simp [Panel.markers, hi, markers, hc.1, hc.2, ht, h]

theorem toggleMarkers_closed (ms : List (Bool × Bool × Bool × Bool)) (i : Nat)
    (h : ms[i]? = some (false, true, false, true)) :
    toggleMarkers ms i = (ms.map collapse).set i (true, true, true, true) := by
  simp [toggleMarkers, h]

theorem toggleMarkers_two (ms : List (Bool × Bool × Bool × Bool)) (a b : Nat) (hab : a ≠ b)
    (ha : ms[a]? = some (false, true, false, true))
    (hb : ms[b]? = some (false, true, false, true)) :
    (toggleMarkers ms a)[a]? = some (true, true, true, true) ∧
      (toggleMarkers (toggleMarkers ms a) b)[a]? = some (false, true, false, true) ∧
      (toggleMarkers (toggleMarkers ms a) b)[b]? = some (true, true, true, true) := by
  have hla : a < ms.length := (List.getElem?_eq_some.mp ha).1
  have hlb : b < ms.length := (List.getElem?_eq_some.mp hb).1
  have h1 := toggleMarkers_closed ms a ha
  have h1a : (toggleMarkers ms a)[a]? = some (true, true, true, true) := by
    rw [h1]
    simp [List.getElem?_set, hla]
  have h1b : (toggleMarkers ms a)[b]? = some (false, true, false, true) := by
    rw [h1]
    simp [List.getElem?_set, hab, hb, collapse]
  have h2 := toggleMarkers_closed (toggleMarkers ms a) b h1b
  have hlen : (toggleMarkers ms a).length = ms.length := by
    rw [h1]
    simp
  refine ⟨h1a, ?_, ?_⟩
  · rw [h2]
    simp [List.getElem?_set, Ne.symm hab, h1a, collapse]
  · rw [h2]
    simp [List.getElem?_set, hlen, hlb]

/-! ## Lemmas on search and filter: the accordion is left alone -/

theorem markers_of_view (a b : Item) (h : accordionView a = accordionView b) :
    markers a = markers b := by
  simp only [accordionView, Prod.mk.injEq] at h
  obtain ⟨h1, h2, h3, _⟩ := h
  unfold markers Item.isOpen
  rw [h1, h2]
  cases ha : a.answer <;> cases hb : b.answer <;> simp_all

theorem shell_setHeading (item : Item) (c : Content) :
    shell (item.setHeading c) = shell item := by
  unfold Item.setHeading
  cases h : item.question <;> simp [shell, accordionView, h]

theorem shell_setAnswerContent (item : Item) (c : Content) :
    shell (item.setAnswerContent c) = shell item := by
  unfold Item.setAnswerContent
  cases h : item.answer <;> simp [shell, accordionView, h]

theorem view_of_shell (a b : Item) (h : shell a = shell b) :
    accordionView a = accordionView b :=
  congrArg (fun x => x.2.2.2) h

theorem removeHighlighting_shell (item : Item) (c : Completion Item)
    (h : removeHighlighting item = some c) : shell c.state = shell item := by
  unfold removeHighlighting at h
  split at h
  · cases h; rfl
  · split at h
    · cases h
    · dsimp only at h
      split at h
      · cases h
        simp [Completion.state, shell_setHeading]
      · split at h
        · cases h
        · cases h
          simp [Completion.state, shell_setHeading, shell_setAnswerContent]

theorem highlightSearchTerms_shell (item : Item) (term : Text) (c : Completion Item)
    (h : highlightSearchTerms item term = some c) : shell c.state = shell item := by
  unfold highlightSearchTerms at h
  split at h
  · cases h
  · next item1 hr =>
    cases h
    exact removeHighlighting_shell item _ hr
  · next item1 hr =>
    have h1 : shell item1 = shell item := removeHighlighting_shell item _ hr
    split at h
    · split at h
      · cases h
      · cases h
        exact h1
      · split at h
        · cases h
        · cases h
          simp [Completion.state, shell_setHeading, h1]
        · cases h
          simp [Completion.state, shell_setHeading, shell_setAnswerContent, h1]
    · cases h
      exact h1

theorem removeHighlighting_view (item : Item) (c : Completion Item)
    (h : removeHighlighting item = some c) : accordionView c.state = accordionView item :=
  view_of_shell _ _ (removeHighlighting_shell item c h)

theorem highlightSearchTerms_view (item : Item) (term : Text) (c : Completion Item)
    (h : highlightSearchTerms item term = some c) :
    accordionView c.state = accordionView item :=
  view_of_shell _ _ (highlightSearchTerms_shell item term c h)

theorem consItem_eq_some (item : Item) (r : Option (Completion (List Item × Bool)))
    (c : Completion (List Item × Bool)) (h : consItem item r = some c) :
    ∃ c0, r = some c0 ∧ c.state.1 = item :: c0.state.1 ∧ c.isReturned = c0.isReturned ∧
      c.state.2 = c0.state.2 := by
  cases r with
  | none => simp [consItem] at h
  | some c0 =>
    simp only [consItem, Option.some.injEq] at h
    subst h
    cases c0 <;> exact ⟨_, rfl, rfl, rfl, rfl⟩

theorem searchLoop_view (term : Text) (l : List Item) (hr : Bool)
    (c : Completion (List Item × Bool)) (h : searchLoop term l hr = some c) :
    c.state.1.map accordionView = l.map accordionView := by
  induction l generalizing hr c with
  | nil =>
    simp only [searchLoop, Option.some.injEq] at h
    subst h
    rfl
  | cons item rest ih =>
    unfold searchLoop at h
    split at h
    · split at h
      · split at h
        · dsimp only at h
          split at h
          · cases h
          · next item2 hh =>
            cases h
            simp only [Completion.state, List.map_cons, List.cons.injEq, and_true]
            exact highlightSearchTerms_view _ _ _ hh
          · next item2 hh =>
            obtain ⟨c0, hc0, hst, _, _⟩ := consItem_eq_some _ _ _ h
            rw [hst, List.map_cons, ih _ _ hc0, List.map_cons]
            congr 1
            exact highlightSearchTerms_view _ _ _ hh
        · obtain ⟨c0, hc0, hst, _, _⟩ := consItem_eq_some _ _ _ h
          rw [hst, List.map_cons, ih _ _ hc0, List.map_cons]
          rfl
      · obtain ⟨c0, hc0, hst, _, _⟩ := consItem_eq_some _ _ _ h
        rw [hst, List.map_cons, ih _ _ hc0, List.map_cons]
        rfl
    · cases h
      rfl

theorem clearLoop_view (l : List Item) (c : Completion (List Item))
    (h : clearLoop l = some c) : c.state.map accordionView = l.map accordionView := by
  induction l generalizing c with
  | nil =>
    simp only [clearLoop, Option.some.injEq] at h
    subst h
    rfl
  | cons item rest ih =>
    unfold clearLoop at h
    split at h
    · cases h
    · next item1 hh =>
      cases h
      simp only [Completion.state, List.map_cons, List.cons.injEq, and_true]
      exact removeHighlighting_view _ _ hh
    · next item1 hh =>
      split at h
      · cases h
      · next c0 hc0 =>
        cases h
        have := ih c0 hc0
        have hv := removeHighlighting_view _ _ hh
        cases c0 <;> simp_all [Completion.state, Completion.map] <;> rfl

theorem map_markers_of_map_view (l1 l2 : List Item)
    (h : l1.map accordionView = l2.map accordionView) : l1.map markers = l2.map markers := by
  induction l1 generalizing l2 with
  | nil =>
    cases l2 with
    | nil => rfl
    | cons b l2 => simp at h
  | cons a l1 ih =>
    cases l2 with
    | nil => simp at h
    | cons b l2 =>
      simp only [List.map_cons, List.cons.injEq] at h
      simp only [List.map_cons, List.cons.injEq]
      exact ⟨markers_of_view a b h.1, ih l2 h.2⟩

theorem showNoResultsMessage_items (hasResults : Bool) (term : Text) (s : Panel) :
    (showNoResultsMessage hasResults term s).items = s.items := by
  unfold showNoResultsMessage
  split <;> split <;> try rfl
  split <;> rfl

theorem updateSearchResultsCount_items (term : Text) (s : Panel) :
    (updateSearchResultsCount term s).items = s.items := by
  unfold updateSearchResultsCount
  dsimp only
  split
  · rfl
  · split <;> rfl

theorem hideNoResultsMessage_items (s : Panel) : (hideNoResultsMessage s).items = s.items := by
  unfold hideNoResultsMessage
  split <;> rfl

theorem resetSearchResultsCount_items (s : Panel) :
    (resetSearchResultsCount s).items = s.items := by
  unfold resetSearchResultsCount
  split <;> rfl

theorem searchFAQ_view (term : Text) (s : Panel) (c : Completion Panel)
    (h : searchFAQ term s = some c) :
    c.state.items.map accordionView = s.items.map accordionView := by
  unfold searchFAQ at h
  split at h
  · cases h
  · next items hr hl =>
    cases h
    exact searchLoop_view term s.items false _ hl
  · next items hr hl =>
    cases h
    simp only [Completion.state, updateSearchResultsCount_items, showNoResultsMessage_items]
    exact searchLoop_view term s.items false _ hl

theorem clearFAQSearch_view (s : Panel) (c : Completion Panel)
    (h : clearFAQSearch s = some c) :
    c.state.items.map accordionView = s.items.map accordionView := by
  unfold clearFAQSearch at h
  split at h
  · cases h
  · next items hl =>
    cases h
    exact clearLoop_view s.items _ hl
  · next items hl =>
    cases h
    simp only [Completion.state, resetSearchResultsCount_items, hideNoResultsMessage_items]
    exact clearLoop_view s.items _ hl

theorem closeFAQItem_markers (item : Item) (h : item.Sound) :
    (markers (closeFAQItem item).state).2.1 = true ∧
      (markers (closeFAQItem item).state).1 = false ∧
      (markers (closeFAQItem item).state).2.2.1 = false := by
  obtain ⟨ht, ho⟩ := h
  unfold closeFAQItem
  cases ha : item.answer with
  | none =>
    simp only [Item.isOpen, ha] at ho
    simp [Completion.state, markers, Item.isOpen, ha, ht, ho]
  | some answer =>
    cases htg : item.toggle with
    | none => simp [htg] at ht
    | some toggle => simp [Completion.state, markers, Item.isOpen]

theorem close_inv (s : Panel) (h : s.Sound) (hc : openCount s ≤ 1) (i : Nat) :
    (onItem s i closeFAQItem).state.Sound ∧ openCount (onItem s i closeFAQItem).state ≤ 1 := by
  rw [sound_iff_markers, openCount_eq_markers]
  rw [openCount_eq_markers] at hc
  have hm := (sound_iff_markers s).mp h
  simp only [Panel.markers, onItem_state_items]
  cases hi : s.items[i]? with
  | none => exact ⟨hm, hc⟩
  | some item =>
    have hmem : item ∈ s.items := List.mem_iff_getElem?.mpr ⟨i, hi⟩
    obtain ⟨c1, c2, c3⟩ := closeFAQItem_markers item (h item hmem)
    simp only [List.map_set]
    refine ⟨soundMarkers_set _ i _ hm ⟨c1, by rw [c2, c3]⟩, ?_⟩
    have := countP_set_le (fun m : Bool × Bool × Bool × Bool => m.2.2.1)
      (markers (closeFAQItem item).state) (s.items.map markers) i
    simp only [c3, Bool.false_eq_true, if_false] at this
    exact Nat.le_trans this hc

theorem closeAll_inv (s : Panel) (h : s.Sound) :
    (closeAllFAQItems s).state.Sound ∧ openCount (closeAllFAQItems s).state ≤ 1 := by
  obtain ⟨s0, h0, hm0⟩ := closeAllFAQItems_markers s h
  rw [h0, sound_iff_markers, openCount_eq_markers]
  simp only [Completion.state, hm0, countP_collapse]
  exact ⟨soundMarkers_collapse _, Nat.zero_le 1⟩

theorem inv_of_view (s s1 : Panel) (hv : s1.items.map accordionView = s.items.map accordionView)
    (h : s.Sound) (hc : openCount s ≤ 1) : s1.Sound ∧ openCount s1 ≤ 1 := by
  have hm : s1.markers = s.markers := map_markers_of_map_view _ _ hv
  rw [sound_iff_markers, openCount_eq_markers, hm]
  rw [openCount_eq_markers] at hc
  exact ⟨(sound_iff_markers s).mp h, hc⟩

theorem filterFAQByCategory_inv (category : String) (s : Panel) (h : s.Sound) :
    (filterFAQByCategory category s).state.Sound ∧
      openCount (filterFAQByCategory category s).state ≤ 1 := by
  unfold filterFAQByCategory
  apply closeAll_inv
  intro item hi
  simp only [List.mem_map] at hi
  obtain ⟨item0, hi0, rfl⟩ := hi
  have := h item0 hi0
  split <;> exact this

theorem run_inv (op : FaqOp) (hop : op.keepsExclusive = true) (s : Panel) (h : s.Sound)
    (hc : openCount s ≤ 1) (c : Completion Panel) (hrun : op.run s = some c) :
    c.state.Sound ∧ openCount c.state ≤ 1 := by
  cases op with
  | toggle i =>
    simp only [FaqOp.run, Option.some.injEq] at hrun
    subst hrun
    exact ⟨toggleFAQ_sound s h i, toggleFAQ_openCount s h hc i⟩
  | openItem i => simp [FaqOp.keepsExclusive] at hop
  | close i =>
    simp only [FaqOp.run, Option.some.injEq] at hrun
    subst hrun
    exact close_inv s h hc i
  | openAll => simp [FaqOp.keepsExclusive] at hop
  | closeAll =>
    simp only [FaqOp.run, Option.some.injEq] at hrun
    subst hrun
    exact closeAll_inv s h
  | search term => exact inv_of_view s _ (searchFAQ_view term s c hrun) h hc
  | clearSearch => exact inv_of_view s _ (clearFAQSearch_view s c hrun) h hc
  | filterByCategory category =>
    simp only [FaqOp.run, Option.some.injEq] at hrun
    subst hrun
    exact filterFAQByCategory_inv category s h

theorem runOps_inv (ops : List FaqOp) (hops : ∀ op ∈ ops, op.keepsExclusive = true)
    (s : Panel) (h : s.Sound) (hc : openCount s ≤ 1) (s1 : Panel)
    (hrun : runOps ops s = some s1) : s1.Sound ∧ openCount s1 ≤ 1 := by
  induction ops generalizing s with
  | nil =>
    simp only [runOps, Option.some.injEq] at hrun
    subst hrun
    exact ⟨h, hc⟩
  | cons op ops ih =>
    unfold runOps at hrun
    split at hrun
    · cases hrun
    · next c hopc =>
      obtain ⟨h1, hc1⟩ := run_inv op (hops op (List.mem_cons_self op ops)) s h hc c hopc
      exact ih (fun o ho => hops o (List.mem_cons_of_mem op ho)) c.state h1 hc1 hrun

/-! ## Lemmas on visibility -/

theorem forEachItem_map_eq {β : Type} (g : Item → β) (f : Item → Completion Item)
    (h : ∀ item, g (f item).state = g item) (l : List Item) :
    (forEachItem f l).state.map g = l.map g := by
  induction l with
  | nil => rfl
  | cons a l ih =>
    have ha := h a
    unfold forEachItem
    cases hf : f a with
    | raised a1 =>
      rw [hf] at ha
      simp only [Completion.state, List.map_cons, List.cons.injEq, and_true]
      exact ha
    | returned a1 =>
      rw [hf] at ha
      cases hl : forEachItem f l with
      | returned l1 =>
        rw [hl] at ih
        simp only [Completion.map, Completion.state, List.map_cons, List.cons.injEq]
        exact ⟨ha, ih⟩
      | raised l1 =>
        rw [hl] at ih
        simp only [Completion.map, Completion.state, List.map_cons, List.cons.injEq]
        exact ⟨ha, ih⟩

theorem getElem?_of_map_eq {α β γ : Type} (f : α → γ) (g : β → γ) (l1 : List α) (l : List β)
    (h : l1.map f = l.map g) (i : Nat) (b : β) (hb : l[i]? = some b) :
    ∃ a, l1[i]? = some a ∧ f a = g b := by
  have h1 : (l1.map f)[i]? = (l.map g)[i]? := by rw [h]
  simp only [List.getElem?_map, hb, Option.map_some'] at h1
  cases ha : l1[i]? with
  | none => simp [ha] at h1
  | some a =>
    simp only [ha, Option.map_some', Option.some.injEq] at h1
    exact ⟨a, rfl, h1⟩

theorem filterFAQByCategory_display (category : String) (s : Panel) :
    (filterFAQByCategory category s).state.items.map (fun item => (item.display, item.category)) =
      s.items.map fun item =>
        (if categoryPredicate category item then Display.block else Display.none,
          item.category) := by
  unfold filterFAQByCategory closeAllFAQItems
  have hstate : ∀ (c : Completion (List Item)) (p : Panel),
      (c.map fun items => { p with items := items }).state.items = c.state := by
    intro c p
    cases c <;> rfl
  rw [hstate]
  rw [forEachItem_map_eq (fun item => (item.display, item.category))]
  · simp only [List.map_map]
    apply List.map_congr_left
    intro item _
    simp only [Function.comp, categoryPredicate]
    by_cases hc : category = "all" ∨ item.category = some category <;> simp [hc]
  · intro item
    have := closeIfOpen_display item
    unfold closeIfOpen at this
    simp only [this.1, this.2]

theorem searchLoop_display (term : Text) (l : List Item) (hr : Bool) (l1 : List Item)
    (hr1 : Bool) (h : searchLoop term l hr = some (.returned (l1, hr1))) :
    l1.map Item.display =
      l.map fun item => if searchPredicate term item then Display.block else Display.none := by
  induction l generalizing hr l1 hr1 with
  | nil =>
    simp only [searchLoop, Option.some.injEq, Completion.returned.injEq, Prod.mk.injEq] at h
    rw [← h.1]
    rfl
  | cons item rest ih =>
    unfold searchLoop at h
    split at h
    · next h4 answer hh ha =>
      have hp : searchPredicate term item = matchesTerm term h4 answer := by
        simp [searchPredicate, hh, ha]
      split at h
      · next hm =>
        split at h
        · dsimp only at h
          split at h
          · cases h
          · cases h
          · next item2 hhl =>
            obtain ⟨c0, hc0, hst, hret, hfl⟩ := consItem_eq_some _ _ _ h
            cases c0 with
            | raised x => simp [Completion.isReturned] at hret
            | returned x =>
              obtain ⟨x1, x2⟩ := x
              simp only [Completion.state] at hst
              have hd := congrArg (fun x => x.1) (highlightSearchTerms_shell _ _ _ hhl)
              simp only [shell, Completion.state] at hd
              rw [hst, List.map_cons, ih _ _ _ hc0, List.map_cons, hp, hm, hd]
              rfl
        · obtain ⟨c0, hc0, hst, hret, hfl⟩ := consItem_eq_some _ _ _ h
          cases c0 with
          | raised x => simp [Completion.isReturned] at hret
          | returned x =>
            obtain ⟨x1, x2⟩ := x
            simp only [Completion.state] at hst
            rw [hst, List.map_cons, ih _ _ _ hc0, List.map_cons, hp, hm]
            rfl
      · next hm =>
        obtain ⟨c0, hc0, hst, hret, hfl⟩ := consItem_eq_some _ _ _ h
        cases c0 with
        | raised x => simp [Completion.isReturned] at hret
        | returned x =>
          obtain ⟨x1, x2⟩ := x
          simp only [Completion.state] at hst
          rw [hst, List.map_cons, ih _ _ _ hc0, List.map_cons, hp]
          simp [hm]
    · cases h

theorem searchFAQ_display (term : Text) (s s1 : Panel)
    (h : searchFAQ term s = some (.returned s1)) :
    s1.items.map Item.display =
      s.items.map fun item => if searchPredicate term item then Display.block else Display.none := by
  unfold searchFAQ at h
  split at h
  · cases h
  · cases h
  · next items hr hl =>
    cases h
    simp only [updateSearchResultsCount_items, showNoResultsMessage_items]
    exact searchLoop_display term s.items false items hr hl

theorem includes_iff_infix (s t : Text) : includes s t = true ↔ t <:+: s := by
  induction s with
  | nil =>
    simp only [includes, List.isPrefixOf_iff_prefix, List.prefix_nil, List.infix_nil]
  | cons c cs ih =>
    simp only [includes, Bool.or_eq_true, List.isPrefixOf_iff_prefix, ih, List.infix_cons_iff]

theorem searchPredicate_iff (term : Text) (item : Item) (h4 : Content) (answer : Answer)
    (hh : item.heading = some h4) (ha : item.answer = some answer) :
    searchPredicate term item = true ↔
      term <:+: toLowerCase (textContent h4) ∨
        term <:+: toLowerCase (textContent answer.content) := by
  simp only [searchPredicate, hh, ha, matchesTerm, Bool.or_eq_true, includes_iff_infix]

theorem searchPredicate_empty (item : Item) (h4 : Content) (answer : Answer)
    (hh : item.heading = some h4) (ha : item.answer = some answer) :
    searchPredicate [] item = true := by
  rw [searchPredicate_iff [] item h4 answer hh ha]
  exact Or.inl List.nil_infix

theorem visibleCount_of_display (p : Item → Bool) (l1 l : List Item)
    (h : l1.map Item.display = l.map fun item => if p item then Display.block else Display.none) :
    visibleCount l1 = (l.filter p).length := by
  induction l1 generalizing l with
  | nil =>
    cases l with
    | nil => rfl
    | cons b l => simp at h
  | cons a l1 ih =>
    cases l with
    | nil => simp at h
    | cons b l =>
      simp only [List.map_cons, List.cons.injEq] at h
      have := ih l h.2
      unfold visibleCount at this ⊢
      cases hp : p b with
      | true =>
        have ha : a.isVisible = true := by simp [Item.isVisible, h.1, hp]
        simp [List.filter_cons, ha, hp, this]
      | false =>
        have ha : a.isVisible = false := by simp [Item.isVisible, h.1, hp]
        simp [List.filter_cons, ha, hp, this]

theorem searchFAQ_resultsCount (term : Text) (s s1 : Panel)
    (h : searchFAQ term s = some (.returned s1)) (hterm : term ≠ [])
    (hc : s.hasSearchContainer = true ∨ s.resultsCount.isSome = true) :
    s1.resultsCount =
      some { text := resultsText (s.items.filter (searchPredicate term)).length,
             display := Display.block } := by
  unfold searchFAQ at h
  split at h
  · cases h
  · cases h
  · next items hr hl =>
    cases h
    have hd := searchLoop_display term s.items false items hr hl
    have hv := visibleCount_of_display (searchPredicate term) items s.items hd
    have hn : ∀ p : Panel, (showNoResultsMessage hr term p).resultsCount = p.resultsCount ∧
        (showNoResultsMessage hr term p).hasSearchContainer = p.hasSearchContainer := by
      intro p
      unfold showNoResultsMessage
      split <;> split <;> try exact ⟨rfl, rfl⟩
      split <;> exact ⟨rfl, rfl⟩
    unfold updateSearchResultsCount
    simp only [(hn _).1, (hn _).2, showNoResultsMessage_items, hv, hterm, ne_eq,
      not_false_eq_true, if_true]
    cases hrc : s.resultsCount with
    | some e => rfl
    | none =>
      rcases hc with hc | hc
      · simp [hc]
      · simp [hrc] at hc

theorem resultsText_one : resultsText 1 = "1 result found".toList := by decide

theorem resultsText_plural (n : Nat) (h : n ≠ 1) :
    resultsText n = (Nat.repr n).toList ++ " results found".toList := by
  simp [resultsText, h]

theorem exists_returned {σ : Type} (o : Option (Completion σ))
    (h : o.map Completion.isReturned = some true) : ∃ s1, o = some (.returned s1) := by
  cases o with
  | none => simp at h
  | some c =>
    cases c with
    | returned x => exact ⟨x, rfl⟩
    | raised x => simp [Completion.isReturned] at h

theorem demoPanel_allClosed : demoPanel.AllClosed := by
  intro item hi
  simp only [demoPanel, List.mem_cons, List.mem_singleton, List.not_mem_nil, or_false] at hi
  rcases hi with rfl | rfl <;> exact ⟨rfl, rfl⟩

theorem demoPanel_hasToggles : demoPanel.HasToggles := by
  intro item hi
  simp only [demoPanel, List.mem_cons, List.mem_singleton, List.not_mem_nil, or_false] at hi
  rcases hi with rfl | rfl <;> rfl

/-! ## Accordion exclusivity on panels that follow the markup contract -/

/-- On a panel whose entries carry the toggle indicator of the markup contract
and are all closed, after any finite sequence of `toggleFAQ` calls at most one
entry is open; and toggling a closed entry A (which opens it) and then another
closed entry B leaves A closed and B open. -/
theorem accordion_exclusive_with_toggles (s : Panel) (hclosed : s.AllClosed)
    (htoggles : s.HasToggles) :
    (∀ calls : List Nat, openCount (toggleAll calls s) ≤ 1) ∧
    (∀ a b : Nat, a ≠ b →
      (s.items[a]?.bind Item.answer).isSome = true →
      (s.items[b]?.bind Item.answer).isSome = true →
      ((toggleAll [a] s).items[a]?).map Item.isOpen = some true ∧
      ((toggleAll [a, b] s).items[a]?).map Item.isOpen = some false ∧
      ((toggleAll [a, b] s).items[b]?).map Item.isOpen = some true) := by
  have hs := sound_of_allClosed s hclosed htoggles
  have h0 : openCount s ≤ 1 := by
    rw [openCount_of_allClosed s hclosed]
    exact Nat.zero_le 1
  refine ⟨fun calls => (toggleAll_inv calls s hs h0).2, ?_⟩
  intro a b hab ha hb
  have hma := markers_of_closed_entry s hclosed htoggles a ha
  have hmb := markers_of_closed_entry s hclosed htoggles b hb
  obtain ⟨t1, t2, t3⟩ := toggleMarkers_two s.markers a b hab hma hmb
  have hs1 := toggleFAQ_sound s hs a
  have e1 : (toggleAll [a] s).markers = toggleMarkers s.markers a :=
    toggleFAQ_markers s hs a
  have e2 : (toggleAll [a, b] s).markers = toggleMarkers (toggleMarkers s.markers a) b := by
    show (toggleFAQ (toggleFAQ s a).state b).state.markers = _
    rw [toggleFAQ_markers _ hs1, toggleFAQ_markers s hs]
  simp only [isOpen_getElem?_markers, e1, e2, t1, t2, t3, Option.map_some', and_self]

/-- The two-entry panel as an instance of `accordion_exclusive_with_toggles`. -/
theorem accordion_exclusive_with_toggles_example :
    demoPanel.AllClosed ∧ demoPanel.HasToggles ∧
      openCount (toggleAll [0, 1, 1, 0, 0, 1] demoPanel) ≤ 1 ∧
      ((toggleAll [0, 1] demoPanel).items[0]?).map Item.isOpen = some false ∧
      ((toggleAll [0, 1] demoPanel).items[1]?).map Item.isOpen = some true := by
  have hc : demoPanel.AllClosed := by
    intro item hi
    simp only [demoPanel, List.mem_cons, List.mem_singleton, List.not_mem_nil, or_false] at hi
    rcases hi with rfl | rfl <;> exact ⟨rfl, rfl⟩
  have ht : demoPanel.HasToggles := by
    intro item hi
    simp only [demoPanel, List.mem_cons, List.mem_singleton, List.not_mem_nil, or_false] at hi
    rcases hi with rfl | rfl <;> rfl
  have h := accordion_exclusive_with_toggles demoPanel hc ht
  have h2 := h.2 0 1 (by decide) rfl rfl
  exact ⟨hc, ht, h.1 [0, 1, 1, 0, 0, 1], h2.2.1, h2.2.2⟩

/-! ## C2 -/

/-- C2, as stated, fails: `FAQ.openAll()` on the two closed entries of the
example panel leaves both of them open. -/
theorem exclusive_at_any_time_counterexample :
    demoPanel.AllClosed ∧ demoPanel.HasToggles ∧
      (runOps [FaqOp.openAll] demoPanel).map openCount = some 2 := by
  refine ⟨?_, ?_, rfl⟩
  · intro item hi
    simp only [demoPanel, List.mem_cons, List.mem_singleton, List.not_mem_nil, or_false] at hi
    rcases hi with rfl | rfl <;> exact ⟨rfl, rfl⟩
  · intro item hi
    simp only [demoPanel, List.mem_cons, List.mem_singleton, List.not_mem_nil, or_false] at hi
    rcases hi with rfl | rfl <;> rfl

/-- The invariant of `runOps_inv` from the all-closed state, for the runs that
stay on the modelled fragment of the host. -/
theorem exclusive_on_fragment (s : Panel) (hclosed : s.AllClosed)
    (htoggles : s.HasToggles) (ops : List FaqOp)
    (hops : ∀ op ∈ ops, op.keepsExclusive = true) (s1 : Panel)
    (hrun : runOps ops s = some s1) : openCount s1 ≤ 1 := by
  have h0 : openCount s ≤ 1 := by
    rw [openCount_of_allClosed s hclosed]
    exact Nat.zero_le 1
  exact (runOps_inv ops hops s (sound_of_allClosed s hclosed htoggles) h0 s1 hrun).2

/-- A run of toggles, a search, a filter, a clear and closes on the two-entry
panel as an instance of `exclusive_on_fragment`. -/
theorem exclusive_on_fragment_example :
    demoPanel.AllClosed ∧ demoPanel.HasToggles ∧
      ∃ s1, runOps [FaqOp.toggle 0, FaqOp.search "abc".toList, FaqOp.toggle 1,
          FaqOp.filterByCategory "general", FaqOp.clearSearch, FaqOp.close 0,
          FaqOp.closeAll, FaqOp.toggle 1] demoPanel = some s1 ∧ openCount s1 ≤ 1 := by
  have hsome : (runOps [FaqOp.toggle 0, FaqOp.search "abc".toList, FaqOp.toggle 1,
      FaqOp.filterByCategory "general", FaqOp.clearSearch, FaqOp.close 0,
      FaqOp.closeAll, FaqOp.toggle 1] demoPanel).isSome = true := rfl
  obtain ⟨s1, h1⟩ := Option.isSome_iff_exists.mp hsome
  exact ⟨demoPanel_allClosed, demoPanel_hasToggles, s1, h1,
    exclusive_on_fragment demoPanel demoPanel_allClosed demoPanel_hasToggles
      _ (by decide) s1 h1⟩

/-! ## The category filter on sound panels -/

/-- After `filterFAQByCategory(c)` the entry at every position has display
`'block'` if `c` is `"all"` or its `data-category` equals `c` exactly, and
display `'none'` otherwise; and in a panel whose entries carry their toggle
indicator and whose `open` classes agree with the active answers, the call
returns and no entry is open. -/
theorem category_filter_on_sound (category : String) (s : Panel) :
    (∀ (i : Nat) (item : Item), s.items[i]? = some item →
      ∃ item1, (filterFAQByCategory category s).state.items[i]? = some item1 ∧
        item1.category = item.category ∧
        item1.display =
          (if category = "all" ∨ item.category = some category then Display.block
            else Display.none)) ∧
    (s.Sound →
      (filterFAQByCategory category s).isReturned = true ∧
        ∀ item1 ∈ (filterFAQByCategory category s).state.items, item1.isOpen = false) := by
  constructor
  · intro i item hi
    obtain ⟨item1, h1, h2⟩ := getElem?_of_map_eq _ _ _ _
      (filterFAQByCategory_display category s) i item hi
    simp only [Prod.mk.injEq] at h2
    refine ⟨item1, h1, h2.2, ?_⟩
    rw [h2.1]
    by_cases hc : category = "all" ∨ item.category = some category <;>
      simp [categoryPredicate, hc]
  · intro hs
    have hs1 : Panel.Sound { s with items := s.items.map fun item =>
        if category = "all" ∨ item.category = some category then
          { item with display := Display.block }
        else { item with display := Display.none } } := by
      intro item hi
      simp only [List.mem_map] at hi
      obtain ⟨item0, hi0, rfl⟩ := hi
      have := hs item0 hi0
      split <;> exact this
    obtain ⟨s0, h0, hm0⟩ := closeAllFAQItems_markers _ hs1
    unfold filterFAQByCategory
    rw [h0]
    refine ⟨rfl, ?_⟩
    intro item1 hi1
    have hmem : markers item1 ∈ s0.markers := List.mem_map.mpr ⟨item1, hi1, rfl⟩
    rw [hm0] at hmem
    obtain ⟨m, _, hm⟩ := List.mem_map.mp hmem
    have := congrArg (fun x => x.2.2.1) hm
    simpa [collapse, markers] using this.symm

/-- Filtering `"general"` over entries tagged general, events, general, the
second of them open, leaves exactly the two general entries visible and no
entry open. -/
theorem category_filter_on_sound_example :
    demoThree.Sound ∧
      (filterFAQByCategory "general" demoThree).state.items.map Item.isVisible =
        [true, false, true] ∧
      (filterFAQByCategory "general" demoThree).isReturned = true ∧
      ∀ item1 ∈ (filterFAQByCategory "general" demoThree).state.items, item1.isOpen = false := by
  have hs : demoThree.Sound := by
    intro item hi
    simp only [demoThree, List.mem_cons, List.mem_singleton, List.not_mem_nil, or_false] at hi
    rcases hi with rfl | rfl | rfl <;> exact ⟨rfl, rfl⟩
  exact ⟨hs, rfl, (category_filter_on_sound "general" demoThree).2 hs⟩

/-! ## C7 -/

/-- C7, as stated, fails: a search for `xyz` hides both entries of the example
panel, and the category filter `general` applied next shows the first entry
again, although it still does not satisfy the search predicate. -/
theorem visibility_conjunction_counterexample :
    (runOps [FaqOp.search "xyz".toList, FaqOp.filterByCategory "general"] demoPanel).map
        (fun s => s.items.map Item.isVisible) = some [true, false] ∧
      demoPanel.items.map
        (fun item => searchPredicate "xyz".toList item && categoryPredicate "general" item) =
        [false, false] := by
  constructor
  · rfl
  · decide

/-- Visibility after a filter and after a search, for the searches that stay
on the modelled fragment of the host. -/
theorem visibility_on_fragment (s : Panel) :
    (∀ (category : String) (i : Nat) (item : Item), s.items[i]? = some item →
      ∃ item1, (filterFAQByCategory category s).state.items[i]? = some item1 ∧
        item1.display = (if categoryPredicate category item then Display.block
          else Display.none)) ∧
    (∀ (term : Text) (s1 : Panel), searchFAQ term s = some (.returned s1) →
      ∀ (i : Nat) (item : Item), s.items[i]? = some item →
        ∃ item1, s1.items[i]? = some item1 ∧
          item1.display = (if searchPredicate term item then Display.block
            else Display.none)) := by
  constructor
  · intro category i item hi
    obtain ⟨item1, h1, h2⟩ := getElem?_of_map_eq _ _ _ _
      (filterFAQByCategory_display category s) i item hi
    simp only [Prod.mk.injEq] at h2
    exact ⟨item1, h1, h2.1⟩
  · intro term s1 hrun i item hi
    exact getElem?_of_map_eq _ _ _ _ (searchFAQ_display term s s1 hrun) i item hi

/-- A search for `abc` after a category filter as an instance of
`visibility_on_fragment`. -/
theorem visibility_on_fragment_example :
    ∃ s1, searchFAQ "abc".toList (filterFAQByCategory "events" demoPanel).state =
        some (.returned s1) ∧
      ∃ item1, s1.items[0]? = some item1 ∧ item1.display = Display.block := by
  obtain ⟨s1, hrun⟩ := exists_returned
    (searchFAQ "abc".toList (filterFAQByCategory "events" demoPanel).state) rfl
  obtain ⟨item0, hi0⟩ : ∃ item0,
      (filterFAQByCategory "events" demoPanel).state.items[0]? = some item0 ∧
        searchPredicate "abc".toList item0 = true := ⟨_, rfl, by decide⟩
  obtain ⟨item1, h2, h3⟩ :=
    (visibility_on_fragment (filterFAQByCategory "events" demoPanel).state).2
      "abc".toList s1 hrun 0 item0 hi0.1
  rw [hi0.2] at h3
  exact ⟨s1, hrun, item1, h2, h3⟩

/-! ## C3 -/

/-- C3 at the failing input: both entries are shown and the term is `c++`. The
first entry matches, and building its highlight raises the `SyntaxError` of
`new RegExp('c++', 'gi')`; the loop ends there, and the second entry, which
does not match, keeps the display `'block'` instead of being hidden.
`searchFAQ_display` with `searchPredicate_iff` is the claimed visibility for
the searches that run to their end. -/
theorem search_visibility_failing_input :
    demoCpp.items.map (searchPredicate "c++".toList) = [true, false] ∧
      (searchFAQ "c++".toList demoCpp).map
          (fun c => (c.isReturned, c.state.items.map Item.display)) =
        some (false, [Display.block, Display.block]) := by
  constructor
  · decide
  · rfl

/-! ## C4 -/

/-- C4 at the failing input: after a search for `abc` has marked the heading
of the first entry, a search with the empty term shows every entry, but the
marker is still in the heading: `searchFAQ` calls `removeHighlighting` only
from `highlightSearchTerms`, which it skips for the empty term. -/
theorem empty_search_failing_input :
    ((searchFAQ "abc".toList demoPanel).bind fun c => searchFAQ [] c.state).map
        (fun c => (c.isReturned,
          c.state.items.map fun item => (item.display, item.heading.map hasMark))) =
      some (true, [(Display.block, some true), (Display.block, some false)]) := by
  rfl

/-! ## C5 -/

/-- C5 at the failing input: the term `.` on the heading `a.b`. The term is
handed to `new RegExp` as it stands, where `.` matches any character, so every
character of the heading is marked; the one literal occurrence of the term is
the middle character. -/
theorem highlight_literal_failing_input :
    (highlightSearchTerms (demoItem none false "a.b" "Yes") ".".toList).map
        (fun c => (c.isReturned, c.state.heading)) =
      some (true, some [Node.mark "a".toList, Node.mark ".".toList, Node.mark "b".toList]) ∧
    markLiteral ".".toList "a.b".toList =
      [Node.text "a".toList, Node.mark ".".toList, Node.text "b".toList] := by
  constructor
  · rfl
  · decide

/-! ## C8 -/

/-- C8 at the failing inputs. An entry with question and answer but no toggle
indicator passes the guard of `initFAQ`; `toggleFAQ` on it raises in
`openFAQItem`, after the answer was made active and before the item got its
`open` class, so the entry is neither fully open nor fully closed. An entry
whose question has no `h4` is opened in full and `toggleFAQ` then raises in
`trackFAQInteraction`. -/
theorem toggle_failing_input :
    madeInteractive demoNoToggle = true ∧
      (toggleFAQ { demoPanel with items := [demoNoToggle] } 0).isReturned = false ∧
      (toggleFAQ { demoPanel with items := [demoNoToggle] } 0).state.items.map
          (fun item => (item.isOpen, item.openClass, item.fullyOpen, item.fullyClosed)) =
        [(true, false, false, false)] ∧
    madeInteractive demoNoHeading = true ∧
      (toggleFAQ { demoPanel with items := [demoNoHeading] } 0).isReturned = false ∧
      (toggleFAQ { demoPanel with items := [demoNoHeading] } 0).state.items.map
          Item.fullyOpen = [true] := by
  decide

/-! ## C9 -/

/-- C9. Open and close are idempotent: for every entry, closing twice leaves
what closing once leaves, and closing an already-closed entry changes nothing;
opening twice leaves what opening once leaves, and opening an already-open
entry leaves its state markers and its height unchanged. -/
theorem open_close_idempotent (item : Item) :
    (closeFAQItem (closeFAQItem item).state).state = (closeFAQItem item).state ∧
    (item.AlreadyClosed → (closeFAQItem item).state = item) ∧
    (openFAQItem (openFAQItem item).state).state = (openFAQItem item).state ∧
    (item.AlreadyOpen → (openFAQItem item).state.observable = item.observable) := by
  obtain ⟨oc, d, cat, idx, q, a, t⟩ := item
  refine ⟨?_, ?_, ?_, ?_⟩
  · cases a <;> cases t <;> simp [closeFAQItem, Completion.state]
  · rintro ⟨h1, h2⟩
    cases a with
    | none => simp [closeFAQItem, Completion.state]
    | some answer =>
      have hh := h2 answer rfl
      obtain ⟨act, mh, tr, sh, ct⟩ := answer
      simp only [Item.fullyClosed, Item.isOpen, Item.toggleActive, Bool.and_eq_true,
        Bool.not_eq_true'] at h1
      obtain ⟨⟨ha, ht⟩, ho⟩ := h1
      cases t with
      | none => simp_all [closeFAQItem, Completion.state]
      | some toggle =>
        obtain ⟨ta⟩ := toggle
        simp_all [closeFAQItem, Completion.state]
  · cases a <;> cases t <;> simp [openFAQItem, Completion.state]
  · rintro ⟨h1, h2⟩
    cases a with
    | none => simp [Item.fullyOpen, Item.isOpen] at h1
    | some answer =>
      have hh := h2 answer rfl
      obtain ⟨act, mh, tr, sh, ct⟩ := answer
      cases t with
      | none => simp [Item.fullyOpen, Item.toggleActive] at h1
      | some toggle =>
        obtain ⟨ta⟩ := toggle
        simp only [Item.fullyOpen, Item.isOpen, Item.toggleActive, Bool.and_eq_true] at h1
        obtain ⟨⟨ha, ht⟩, ho⟩ := h1
        simp_all [openFAQItem, Completion.state, Item.observable, Item.isOpen,
          Item.toggleActive]

/-- Witness of C9 on an open and on a closed entry of the examples. -/
theorem open_close_idempotent_witness :
    (demoItem none false "Who can join?" "Every student.").AlreadyClosed ∧
      (closeFAQItem (demoItem none false "Who can join?" "Every student.")).state =
        demoItem none false "Who can join?" "Every student." ∧
    (demoItem none true "Who can join?" "Every student.").AlreadyOpen ∧
      (openFAQItem (demoItem none true "Who can join?" "Every student.")).state.observable =
        (demoItem none true "Who can join?" "Every student.").observable := by
  have hc : (demoItem none false "Who can join?" "Every student.").AlreadyClosed := by
    refine ⟨rfl, ?_⟩
    intro answer h
    cases h
    rfl
  have ho : (demoItem none true "Who can join?" "Every student.").AlreadyOpen := by
    refine ⟨rfl, ?_⟩
    intro answer h
    cases h
    rfl
  exact ⟨hc, (open_close_idempotent _).2.1 hc, ho, (open_close_idempotent _).2.2.2 ho⟩

/-! ## C10 -/

/-- C10 at the failing input: one of the two entries matches the term `c++`,
and `searchFAQ` raises the `SyntaxError` of `new RegExp('c++', 'gi')` while
highlighting it, before `updateSearchResultsCount` is reached: no results
indicator is created or shown. `searchFAQ_resultsCount` is the claimed text
for the searches that run to their end. -/
theorem results_count_failing_input :
    (demoCpp.items.filter (searchPredicate "c++".toList)).length = 1 ∧
      (searchFAQ "c++".toList demoCpp).map (fun c => (c.isReturned, c.state.resultsCount)) =
        some (false, none) := by
  constructor
  · decide
  · rfl

end FAQ

namespace Main

open FAQ (Completion)

/-! ## Lemmas on the slideshow -/

theorem updateSlideshow_currentSlide (s : Slideshow) :
    (updateSlideshow s).state.currentSlide = s.currentSlide := by
  unfold updateSlideshow
  cases s.hasContainer <;> rfl

theorem nextSlide_currentSlide (s : Slideshow) (n i : Nat) (hn : 0 < n)
    (htotal : s.totalSlides = n) (hcur : s.currentSlide = some (i : Int)) :
    (nextSlide s).state.currentSlide = some (((i : Int) + 1) % (n : Int)) := by
  unfold nextSlide
  rw [updateSlideshow_currentSlide]
  have hn0 : n ≠ 0 := Nat.pos_iff_ne_zero.mp hn
  simp only [hcur, htotal, Option.some_bind, jsMod, hn0, if_false]
  rw [Int.tmod_eq_emod (by omega) (by omega)]

theorem prevSlide_currentSlide (s : Slideshow) (n i : Nat) (hn : 0 < n)
    (htotal : s.totalSlides = n) (hcur : s.currentSlide = some (i : Int)) :
    (prevSlide s).state.currentSlide = some (((i : Int) - 1 + (n : Int)) % (n : Int)) := by
  unfold prevSlide
  rw [updateSlideshow_currentSlide]
  have hn0 : n ≠ 0 := Nat.pos_iff_ne_zero.mp hn
  simp only [hcur, htotal, Option.some_bind, jsMod, hn0, if_false]
  rw [Int.tmod_eq_emod (by omega) (by omega)]

theorem goToSlide_currentSlide (s : Slideshow) (k : Int) :
    (goToSlide k s).state.currentSlide = some k := by
  unfold goToSlide
  rw [updateSlideshow_currentSlide]

/-! ## C13 -/

/-- C13, as stated, fails: with four slides, `goToSlide(7)` leaves the index
at 7, which is neither below the slide count nor `7 mod 4`. -/
theorem slideshow_modulo_counterexample :
    (goToSlide 7 (demoShow 0)).state.currentSlide = some 7 ∧
      ¬ ((7 : Int) < 4) ∧ (7 : Int) % 4 = 3 := by
  decide

/-- C13, amended. With `n > 0` slides and the index `i` in `0 ≤ i < n`,
`nextSlide` and `prevSlide` leave the index in `0 ≤ index < n`; `goToSlide(k)`
sets the index to `k` as it is given, for every integer `k`, and that is
`k mod n` exactly when `0 ≤ k < n`. -/
theorem slideshow_index_in_range (s : Slideshow) (n i : Nat) (hn : 0 < n)
    (htotal : s.totalSlides = n) (hcur : s.currentSlide = some (i : Int)) :
    (∃ j : Int, (nextSlide s).state.currentSlide = some j ∧ 0 ≤ j ∧ j < n) ∧
    (∃ j : Int, (prevSlide s).state.currentSlide = some j ∧ 0 ≤ j ∧ j < n) ∧
    (∀ k : Int, (goToSlide k s).state.currentSlide = some k ∧
      (k = k % (n : Int) ↔ 0 ≤ k ∧ k < n)) := by
  have hnz : (n : Int) ≠ 0 := by omega
  have hnpos : (0 : Int) < n := by omega
  refine ⟨⟨_, nextSlide_currentSlide s n i hn htotal hcur, Int.emod_nonneg _ hnz,
    Int.emod_lt_of_pos _ hnpos⟩,
    ⟨_, prevSlide_currentSlide s n i hn htotal hcur, Int.emod_nonneg _ hnz,
      Int.emod_lt_of_pos _ hnpos⟩, ?_⟩
  intro k
  refine ⟨goToSlide_currentSlide s k, ?_⟩
  constructor
  · intro h
    rw [h]
    exact ⟨Int.emod_nonneg _ hnz, Int.emod_lt_of_pos _ hnpos⟩
  · rintro ⟨h0, h1⟩
    exact (Int.emod_eq_of_lt h0 h1).symm

/-- Witness of the amended C13 on four slides, from the last slide. -/
theorem slideshow_index_in_range_witness :
    (∃ j : Int, (nextSlide (demoShow 3)).state.currentSlide = some j ∧ 0 ≤ j ∧ j < (4 : Nat)) ∧
      (goToSlide 2 (demoShow 3)).state.currentSlide = some 2 :=
  ⟨(slideshow_index_in_range (demoShow 3) 4 3 (by decide) rfl rfl).1,
    ((slideshow_index_in_range (demoShow 3) 4 3 (by decide) rfl rfl).2.2 2).1⟩

/-! ## C14 -/

/-- C14. With `n > 0` slides and the index `i` in `0 ≤ i < n`, `nextSlide`
sets the index to `(i + 1) mod n`, so from `n - 1` to `0`; `prevSlide` sets it
to `(i - 1 + n) mod n`, so from `0` to `n - 1`; and `goToSlide(j)` with
`0 ≤ j < n` sets it to `j`. -/
theorem slideshow_wraps_around (s : Slideshow) (n i : Nat) (hn : 0 < n) (hi : i < n)
    (htotal : s.totalSlides = n) (hcur : s.currentSlide = some (i : Int)) :
    (nextSlide s).state.currentSlide = some (((i : Int) + 1) % (n : Int)) ∧
    (i = n - 1 → (nextSlide s).state.currentSlide = some 0) ∧
    (prevSlide s).state.currentSlide = some (((i : Int) - 1 + (n : Int)) % (n : Int)) ∧
    (i = 0 → (prevSlide s).state.currentSlide = some ((n : Int) - 1)) ∧
    (∀ j : Nat, j < n → (goToSlide (j : Int) s).state.currentSlide = some (j : Int)) := by
  have hnext := nextSlide_currentSlide s n i hn htotal hcur
  have hprev := prevSlide_currentSlide s n i hn htotal hcur
  refine ⟨hnext, ?_, hprev, ?_, fun j _ => goToSlide_currentSlide s j⟩
  · intro hlast
    rw [hnext]
    have : ((i : Int) + 1) = (n : Int) := by omega
    rw [this, Int.emod_self]
  · intro hfirst
    rw [hprev]
    subst hfirst
    have : ((0 : Nat) : Int) - 1 + (n : Int) = (n : Int) - 1 := by omega
    rw [this, Int.emod_eq_of_lt (by omega) (by omega)]

/-- Witness of C14: with four slides `nextSlide` wraps from 3 to 0 and
`goToSlide(2)` gives 2. -/
theorem slideshow_wraps_around_witness :
    (nextSlide (demoShow 3)).state.currentSlide = some 0 ∧
      (goToSlide 2 (demoShow 3)).state.currentSlide = some 2 :=
  ⟨(slideshow_wraps_around (demoShow 3) 4 3 (by decide) (by decide) rfl rfl).2.1 rfl,
    (slideshow_wraps_around (demoShow 3) 4 3 (by decide) (by decide) rfl rfl).2.2.2.2 2
      (by decide)⟩

end Main

namespace Forms

open FAQ (Text)

/-! ## Lemmas on the anchored regular expressions -/

theorem within_succ (max : Option Nat) (k : Nat) :
    within max (k + 1) ↔ canTake max = true ∧ within (lessOne max) k := by
  cases max with
  | none => simp [within, canTake, lessOne]
  | some m =>
    cases m with
    | zero => simp [within, canTake]
    | succ m => simp [within, canTake, lessOne]

theorem within_zero (max : Option Nat) : within max 0 := fun _ _ => Nat.zero_le _

theorem mem_remainders (cls : Char → Bool) (min : Nat) (max : Option Nat) (s r : Text) :
    r ∈ remainders cls min max s ↔
      ∃ u, s = u ++ r ∧ min ≤ u.length ∧ within max u.length ∧ ∀ c ∈ u, cls c = true := by
  induction s generalizing min max with
  | nil =>
    cases min with
    | zero =>
      simp only [remainders, List.mem_singleton]
      constructor
      · rintro rfl
        exact ⟨[], rfl, Nat.le_refl 0, within_zero max, by simp⟩
      · rintro ⟨u, hu, _⟩
        have := List.append_eq_nil.mp hu.symm
        exact this.2
    | succ min =>
      simp only [remainders, List.not_mem_nil, false_iff]
      rintro ⟨u, hu, hmin, _⟩
      have := (List.append_eq_nil.mp hu.symm).1
      subst this
      simp at hmin
  | cons c cs ih =>
    have step : ∀ min0 : Nat,
        (cls c = true ∧ canTake max = true ∧ r ∈ remainders cls min0 (lessOne max) cs) ↔
          ∃ u, c :: cs = u ++ r ∧ min0 + 1 ≤ u.length ∧ within max u.length ∧
            ∀ x ∈ u, cls x = true := by
      intro min0
      rw [ih]
      constructor
      · rintro ⟨hc, hcan, u, hu, hmin, hw, hall⟩
        refine ⟨c :: u, by rw [hu]; rfl, by simpa using hmin, ?_, ?_⟩
        · exact (within_succ max u.length).mpr ⟨hcan, hw⟩
        · intro x hx
          rcases List.mem_cons.mp hx with rfl | hx
          · exact hc
          · exact hall x hx
      · rintro ⟨u, hu, hmin, hw, hall⟩
        cases u with
        | nil => simp at hmin
        | cons x u =>
          simp only [List.cons_append, List.cons.injEq] at hu
          obtain ⟨rfl, hu⟩ := hu
          have hw' := (within_succ max u.length).mp hw
          exact ⟨hall _ (List.mem_cons_self _ _), hw'.1, u, hu, by simpa using hmin, hw'.2,
            fun y hy => hall y (List.mem_cons_of_mem _ hy)⟩
    cases min with
    | zero =>
      have hstep := step 0
      simp only [remainders, List.mem_cons]
      constructor
      · rintro (rfl | h)
        · exact ⟨[], rfl, Nat.le_refl 0, within_zero max, by simp⟩
        · have h' : cls c = true ∧ canTake max = true ∧
              r ∈ remainders cls 0 (lessOne max) cs := by
            by_cases hcc : (cls c && canTake max) = true
            · simp only [hcc, if_true] at h
              simp only [Bool.and_eq_true] at hcc
              exact ⟨hcc.1, hcc.2, h⟩
            · simp [hcc] at h
          obtain ⟨u, hu, _, hw, hall⟩ := hstep.mp h'
          exact ⟨u, hu, Nat.zero_le _, hw, hall⟩
      · rintro ⟨u, hu, _, hw, hall⟩
        cases u with
        | nil => exact Or.inl (by simpa using hu.symm)
        | cons x u =>
          right
          have h' := hstep.mpr ⟨x :: u, hu, by simp, hw, hall⟩
          simp [h'.1, h'.2.1, h'.2.2]
    | succ min =>
      have hstep := step min
      simp only [remainders]
      constructor
      · intro h
        have h' : cls c = true ∧ canTake max = true ∧
            r ∈ remainders cls min (lessOne max) cs := by
          by_cases hcc : (cls c && canTake max) = true
          · simp only [hcc, if_true] at h
            simp only [Bool.and_eq_true] at hcc
            exact ⟨hcc.1, hcc.2, h⟩
          · simp [hcc] at h
        exact hstep.mp h'
      · intro h
        have h' := hstep.mpr h
        simp [h'.1, h'.2.1, h'.2.2]

theorem matchPieces_cons (p : Piece) (ps : List Piece) (s : Text) :
    matchPieces (p :: ps) s = true ↔
      ∃ u v, s = u ++ v ∧ p.min ≤ u.length ∧ within p.max u.length ∧
        (∀ c ∈ u, p.cls c = true) ∧ matchPieces ps v = true := by
  simp only [matchPieces, List.any_eq_true, mem_remainders]
  constructor
  · rintro ⟨v, ⟨u, hu, h1, h2, h3⟩, hv⟩
    exact ⟨u, v, hu, h1, h2, h3, hv⟩
  · rintro ⟨u, v, hu, h1, h2, h3, hv⟩
    exact ⟨v, ⟨u, hu, h1, h2, h3⟩, hv⟩

theorem matchPieces_nil (s : Text) : matchPieces [] s = true ↔ s = [] := by
  simp [matchPieces]

theorem eq_singleton_of_piece (a : Char) (u : Text) (hmin : 1 ≤ u.length)
    (hmax : within (some 1) u.length) (hall : ∀ c ∈ u, (c == a) = true) : u = [a] := by
  have h1 := hmax 1 rfl
  cases u with
  | nil => simp at hmin
  | cons x u =>
    cases u with
    | nil =>
      have := hall x (List.mem_cons_self _ _)
      simp only [beq_iff_eq] at this
      rw [this]
    | cons y u => simp at h1

theorem notSpaceOrAt_iff (c : Char) :
    notSpaceOrAt c = true ↔ isWhiteSpace c = false ∧ c ≠ '@' := by
  simp [notSpaceOrAt]

theorem validateEmail_decomp (s : Text) :
    validateEmail s = true ↔
      ∃ l d1 d2, s = l ++ '@' :: (d1 ++ '.' :: d2) ∧ l ≠ [] ∧ d1 ≠ [] ∧ d2 ≠ [] ∧
        (∀ c ∈ l, notSpaceOrAt c = true) ∧ (∀ c ∈ d1, notSpaceOrAt c = true) ∧
        (∀ c ∈ d2, notSpaceOrAt c = true) := by
  unfold validateEmail emailRegex
  simp only [matchPieces_cons, matchPieces_nil]
  constructor
  · rintro ⟨u1, v1, hs1, hmin1, _, hall1, u2, v2, hs2, hmin2, hmax2, hall2, u3, v3, hs3, hmin3,
      _, hall3, u4, v4, hs4, hmin4, hmax4, hall4, u5, v5, hs5, hmin5, _, hall5, hv5⟩
    have e2 := eq_singleton_of_piece '@' u2 hmin2 hmax2 hall2
    have e4 := eq_singleton_of_piece '.' u4 hmin4 hmax4 hall4
    subst hv5 e2 e4
    refine ⟨u1, u3, u5, ?_, ?_, ?_, ?_, hall1, hall3, hall5⟩
    · rw [hs1, hs2, hs3, hs4, hs5]
      simp
    · intro h
      simp [h] at hmin1
    · intro h
      simp [h] at hmin3
    · intro h
      simp [h] at hmin5
  · rintro ⟨l, d1, d2, hs, hl, hd1, hd2, hall1, hall2, hall3⟩
    have len_pos : ∀ t : Text, t ≠ [] → 1 ≤ t.length := by
      intro t ht
      cases t with
      | nil => exact absurd rfl ht
      | cons x t => simp
    have hnone : ∀ k, within none k := fun _ _ h => by cases h
    have hone : within (some 1) 1 := by
      intro m hm
      cases hm
      exact Nat.le_refl 1
    exact ⟨l, '@' :: (d1 ++ '.' :: d2), hs, len_pos l hl, hnone _, hall1,
      ['@'], d1 ++ '.' :: d2, rfl, Nat.le_refl 1, hone, (by simp),
      d1, '.' :: d2, rfl, len_pos d1 hd1, hnone _, hall2,
      ['.'], d2, rfl, Nat.le_refl 1, hone, (by simp),
      d2, [], (by simp), len_pos d2 hd2, hnone _, hall3, rfl⟩

theorem takeWhile_ne_append (a : Char) (l r : Text) (hl : a ∉ l) :
    (l ++ a :: r).takeWhile (fun c => c != a) = l ∧
      (l ++ a :: r).dropWhile (fun c => c != a) = a :: r := by
  induction l with
  | nil => simp [List.takeWhile, List.dropWhile]
  | cons x l ih =>
    have hx : x ≠ a := fun h => hl (h ▸ List.mem_cons_self _ _)
    have hl' : a ∉ l := fun h => hl (List.mem_cons_of_mem _ h)
    have := ih hl'
    have hb : (x != a) = true := by simp [hx]
    simp [List.takeWhile, List.dropWhile, hb, this.1, this.2]

theorem dropWhile_head (a : Char) (s : Text) (x : Char) (r : Text)
    (h : s.dropWhile (fun c => c != a) = x :: r) : x = a := by
  induction s with
  | nil => simp at h
  | cons y s ih =>
    by_cases hy : y = a
    · subst hy
      simp [List.dropWhile] at h
      exact h.1.symm
    · have hb : (y != a) = true := by simp [hy]
      simp only [List.dropWhile, hb] at h
      exact ih h

/-! ## C15 -/

/-- C15. `validateEmail(s)` is true exactly when `s` contains no white space,
contains exactly one `@`, has a non-empty part before the `@`, and the part
after the `@` contains a `.` that is neither its first nor its last character;
so `a@b.com` is accepted and `not-an-email` is rejected. -/
theorem validateEmail_spec :
    (∀ s : Text, validateEmail s = true ↔
      ((∀ c ∈ s, isWhiteSpace c = false) ∧ s.count '@' = 1 ∧
        s.takeWhile (fun c => c != '@') ≠ [] ∧
        ∃ a b, (s.dropWhile (fun c => c != '@')).drop 1 = a ++ '.' :: b ∧ a ≠ [] ∧ b ≠ [])) ∧
    validateEmail "a@b.com".toList = true ∧
    validateEmail "not-an-email".toList = false := by
  refine ⟨fun s => ?_, by decide, by decide⟩
  rw [validateEmail_decomp]
  constructor
  · rintro ⟨l, d1, d2, hs, hl, hd1, hd2, hall1, hall2, hall3⟩
    have hl_at : '@' ∉ l := fun h => ((notSpaceOrAt_iff _).mp (hall1 _ h)).2 rfl
    have hd1_at : '@' ∉ d1 := fun h => ((notSpaceOrAt_iff _).mp (hall2 _ h)).2 rfl
    have hd2_at : '@' ∉ d2 := fun h => ((notSpaceOrAt_iff _).mp (hall3 _ h)).2 rfl
    obtain ⟨ht, hd⟩ := takeWhile_ne_append '@' l (d1 ++ '.' :: d2) hl_at
    subst hs
    refine ⟨?_, ?_, ?_, d1, d2, ?_, hd1, hd2⟩
    · intro c hc
      simp only [List.mem_append, List.mem_cons] at hc
      rcases hc with hc | rfl | hc | rfl | hc
      · exact ((notSpaceOrAt_iff _).mp (hall1 _ hc)).1
      · decide
      · exact ((notSpaceOrAt_iff _).mp (hall2 _ hc)).1
      · decide
      · exact ((notSpaceOrAt_iff _).mp (hall3 _ hc)).1
    · simp only [List.count_append, List.count_cons, List.count_eq_zero.mpr hl_at,
        List.count_eq_zero.mpr hd1_at, List.count_eq_zero.mpr hd2_at]
      decide
    · rw [ht]
      exact hl
    · rw [hd]
      rfl
  · rintro ⟨hws, hcount, hbefore, a, b, hafter, ha, hb⟩
    have hsplit := List.takeWhile_append_dropWhile (fun c => c != '@') s
    have hl_at : '@' ∉ s.takeWhile (fun c => c != '@') := by
      intro h
      have := List.mem_takeWhile_imp h
      simp at this
    cases hrest : s.dropWhile (fun c => c != '@') with
    | nil =>
      rw [hrest, List.append_nil] at hsplit
      rw [← hsplit, List.count_eq_zero.mpr hl_at] at hcount
      exact absurd hcount (by decide)
    | cons x r =>
      have hx := dropWhile_head '@' s x r hrest
      subst hx
      rw [hrest] at hsplit hafter
      simp only [List.drop_succ_cons, List.drop_zero] at hafter
      have hr_at : '@' ∉ r := by
        rw [← hsplit, List.count_append, List.count_cons_self,
          List.count_eq_zero.mpr hl_at] at hcount
        have : List.count '@' r = 0 := by omega
        exact List.count_eq_zero.mp this
      subst hafter
      have hmem : ∀ c, c ∈ s.takeWhile (fun c => c != '@') ∨ c ∈ a ∨ c ∈ b → c ∈ s := by
        intro c hc
        rw [← hsplit]
        simp only [List.mem_append, List.mem_cons]
        rcases hc with hc | hc | hc
        · exact Or.inl hc
        · exact Or.inr (Or.inr (Or.inl hc))
        · exact Or.inr (Or.inr (Or.inr (Or.inr hc)))
      refine ⟨_, a, b, hsplit.symm, hbefore, ha, hb, ?_, ?_, ?_⟩
      · intro c hc
        exact (notSpaceOrAt_iff c).mpr ⟨hws c (hmem c (Or.inl hc)), fun h => hl_at (h ▸ hc)⟩
      · intro c hc
        refine (notSpaceOrAt_iff c).mpr ⟨hws c (hmem c (Or.inr (Or.inl hc))), fun h => ?_⟩
        exact hr_at (h ▸ List.mem_append_left _ hc)
      · intro c hc
        refine (notSpaceOrAt_iff c).mpr ⟨hws c (hmem c (Or.inr (Or.inr hc))), fun h => ?_⟩
        exact hr_at (h ▸ List.mem_append_right _ (List.mem_cons_of_mem _ hc))

/-! ## Lemmas on `parseInt` -/

theorem digitChar_facts (d : Nat) (hd : d < 10) :
    isWhiteSpace (digitChar d) = false ∧ digitChar d ≠ '-' ∧ digitChar d ≠ '+' ∧
      digitChar d ≠ 'x' ∧ digitChar d ≠ 'X' ∧ digitValue 10 (digitChar d) = some d := by
  interval_cases d <;> decide

theorem readDigits_digits (ds : List Nat) (hds : ∀ d ∈ ds, d < 10) (acc : Nat) (seen : Bool) :
    readDigits 10 (ds.map digitChar) acc seen =
      (ds.foldl (fun a d => a * 10 + d) acc, seen || !ds.isEmpty) := by
  induction ds generalizing acc seen with
  | nil => simp [readDigits]
  | cons d ds ih =>
    have hd := (digitChar_facts d (hds d (List.mem_cons_self _ _))).2.2.2.2.2
    simp only [List.map_cons, readDigits, hd, List.foldl_cons]
    rw [ih (fun x hx => hds x (List.mem_cons_of_mem _ hx))]
    simp

theorem foldl_digits (n : Nat) :
    (Nat.digits 10 n).reverse.foldl (fun a d => a * 10 + d) 0 = n := by
  rw [List.foldl_reverse]
  have h := Nat.ofDigits_digits 10 n
  rw [Nat.ofDigits_eq_foldr] at h
  simp only [Nat.cast_id] at h
  have hf : (fun (x y : Nat) => y * 10 + x) = fun (x y : Nat) => x + 10 * y := by
    funext x y
    omega
  rw [hf]
  exact h

theorem parseMagnitude_digits (ds : List Nat) (hds : ∀ d ∈ ds, d < 10) (hne : ds ≠ []) :
    parseMagnitude (ds.map digitChar) = some (ds.foldl (fun a d => a * 10 + d) 0) := by
  have key : readDigits 10 (ds.map digitChar) 0 false =
      (ds.foldl (fun a d => a * 10 + d) 0, true) := by
    rw [readDigits_digits ds hds]
    cases ds with
    | nil => exact absurd rfl hne
    | cons d ds => simp
  have second : ∀ c rest (c2 : Char), ds.map digitChar = c :: c2 :: rest →
      c2 ≠ 'x' ∧ c2 ≠ 'X' := by
    intro c rest c2 h
    have hmem : c2 ∈ ds.map digitChar := by
      rw [h]
      simp
    obtain ⟨d, hd, rfl⟩ := List.mem_map.mp hmem
    have := digitChar_facts d (hds d hd)
    exact ⟨this.2.2.2.1, this.2.2.2.2.1⟩
  unfold parseMagnitude
  split
  · next radix digits heq =>
    split at heq
    · next rest h => exact absurd rfl (second _ _ _ h).1
    · next rest h => exact absurd rfl (second _ _ _ h).2
    · cases heq
      rw [key]

theorem parseMagnitude_decimalDigits (n : Nat) :
    parseMagnitude (decimalDigits n) = some n := by
  unfold decimalDigits
  by_cases hn : n = 0
  · subst hn
    decide
  · simp only [hn, if_false]
    rw [parseMagnitude_digits, foldl_digits]
    · intro d hd
      exact Nat.digits_lt_base (by decide) (List.mem_reverse.mp hd)
    · intro h
      have := List.reverse_eq_nil_iff.mp h
      exact hn (Nat.digits_eq_nil_iff_eq_zero.mp this)

theorem decimalDigits_head (n : Nat) :
    ∃ c cs, decimalDigits n = c :: cs ∧ isWhiteSpace c = false ∧ c ≠ '-' ∧ c ≠ '+' := by
  unfold decimalDigits
  by_cases hn : n = 0
  · subst hn
    exact ⟨'0', [], rfl, by decide, by decide, by decide⟩
  · simp only [hn, if_false]
    cases hds : (Nat.digits 10 n).reverse with
    | nil =>
      have := List.reverse_eq_nil_iff.mp hds
      exact absurd (Nat.digits_eq_nil_iff_eq_zero.mp this) hn
    | cons d ds =>
      have hd : d < 10 := by
        have : d ∈ (Nat.digits 10 n).reverse := by
          rw [hds]
          exact List.mem_cons_self _ _
        exact Nat.digits_lt_base (by decide) (List.mem_reverse.mp this)
      have := digitChar_facts d hd
      exact ⟨digitChar d, ds.map digitChar, rfl, this.1, this.2.1, this.2.2.1⟩

theorem parseInt_decimal (y : Int) : parseInt (decimal y) = some y := by
  cases y with
  | ofNat n =>
    obtain ⟨c, cs, hcs, hws, hminus, hplus⟩ := decimalDigits_head n
    have hm := parseMagnitude_decimalDigits n
    simp only [decimal]
    rw [hcs] at hm ⊢
    unfold parseInt
    simp only [List.dropWhile, hws]
    split
    · next rest h =>
      simp only [List.cons.injEq] at h
      exact absurd h.1 hminus
    · next rest h =>
      simp only [List.cons.injEq] at h
      exact absurd h.1 hplus
    · rw [hm]
      rfl
  | negSucc n =>
    have hm := parseMagnitude_decimalDigits (n + 1)
    simp only [decimal]
    unfold parseInt
    have hws : isWhiteSpace '-' = false := by decide
    simp only [List.dropWhile, hws, hm, Option.map_some']
    rfl

/-! ## C16 -/

/-- C16, as stated, fails in its last part: the input `2027abc` is not a
number, and with the current year 2026 it is accepted, because `parseInt`
reads the leading `2027` and ignores what follows. -/
theorem graduation_year_counterexample :
    isNumber "2027abc".toList = false ∧
      validateGraduationYear 2026 "2027abc".toList = true := by
  decide

/-- C16, amended. For every current year `c` and every integer `y`, written
as a decimal numeral, `validateGraduationYear` is true exactly when
`c ≤ y ≤ c + 6`, so `c + 1` is accepted and `c + 10` is rejected; an input in
which `parseInt` finds no leading integer is rejected, and any other input is
judged by its leading integer alone. -/
theorem graduation_year_window (c : Int) :
    (∀ y : Int, validateGraduationYear c (decimal y) = true ↔ (c ≤ y ∧ y ≤ c + 6)) ∧
    validateGraduationYear c (decimal (c + 1)) = true ∧
    validateGraduationYear c (decimal (c + 10)) = false ∧
    (∀ s : Text, parseInt s = none → validateGraduationYear c s = false) ∧
    (∀ (s : Text) (y : Int), parseInt s = some y →
      (validateGraduationYear c s = true ↔ (c ≤ y ∧ y ≤ c + 6))) := by
  have judged : ∀ (s : Text) (y : Int), parseInt s = some y →
      (validateGraduationYear c s = true ↔ (c ≤ y ∧ y ≤ c + 6)) := by
    intro s y h
    simp [validateGraduationYear, h]
  have window : ∀ y : Int,
      validateGraduationYear c (decimal y) = true ↔ (c ≤ y ∧ y ≤ c + 6) :=
    fun y => judged _ y (parseInt_decimal y)
  refine ⟨window, (window _).mpr ⟨by omega, by omega⟩, ?_, ?_, judged⟩
  · cases h : validateGraduationYear c (decimal (c + 10)) with
    | false => rfl
    | true =>
      have := (window _).mp h
      omega
  · intro s h
    simp [validateGraduationYear, h]

/-! ## C17 -/

/-- C17. `validateStudentId(s)` is true exactly when every character of `s` is
a decimal digit `0`-`9` and `s` has from 8 to 10 characters; so `12345678` is
accepted and `123` is rejected. -/
theorem validateStudentId_spec :
    (∀ s : Text, validateStudentId s = true ↔
      ((∀ c ∈ s, '0' ≤ c ∧ c ≤ '9') ∧ 8 ≤ s.length ∧ s.length ≤ 10)) ∧
    validateStudentId "12345678".toList = true ∧
    validateStudentId "123".toList = false := by
  refine ⟨fun s => ?_, by decide, by decide⟩
  unfold validateStudentId studentIdRegex
  rw [matchPieces_cons]
  simp only [matchPieces_nil]
  constructor
  · rintro ⟨u, v, hs, hmin, hmax, hall, rfl⟩
    simp only [List.append_nil] at hs
    subst hs
    refine ⟨fun c hc => ?_, hmin, hmax 10 rfl⟩
    have := hall c hc
    simpa [isDigit] using this
  · rintro ⟨hall, h8, h10⟩
    refine ⟨s, [], by simp, h8, ?_, ?_, rfl⟩
    · intro m hm
      cases hm
      exact h10
    · intro c hc
      simpa [isDigit] using hall c hc

end Forms

namespace Forms

/-- Witness of the amended C16: `abc` has no leading integer and is rejected. -/
theorem graduation_year_window_witness :
    parseInt "abc".toList = none ∧ validateGraduationYear 2026 "abc".toList = false :=
  ⟨by decide, (graduation_year_window 2026).2.2.2.1 "abc".toList (by decide)⟩

/-! ## C19 -/

/-- C19 at the failing input. With a message of three letters followed by
seven spaces, `validateContactForm` returns true (it measures the untrimmed
value, ten characters long) while `validateField` on the message control
returns false (it measures the trimmed value, three characters long); the
other three controls pass `validateField`. -/
theorem contact_form_failing_input :
    (validateContactForm (contactForm "Ann" "a@b.com" "Hi" "abc       ")).1 = true ∧
      (validateField (fun _ => true) 2026
        (contactField "message" FieldType.other "abc       ")).1 = false ∧
      (validateField (fun _ => true) 2026 (contactField "name" FieldType.other "Ann")).1 = true ∧
      (validateField (fun _ => true) 2026
        (contactField "email" FieldType.email "a@b.com")).1 = true ∧
      (validateField (fun _ => true) 2026 (contactField "subject" FieldType.other "Hi")).1 =
        true := by
  decide

end Forms

namespace FAQ

/-! ## Lemmas on the export -/

theorem exportLoop_eq (l : List Item)
    (h : ∀ item ∈ l, item.heading.isSome = true ∧ item.answer.isSome = true) :
    exportLoop l = .returned (l.map Item.record) := by
  induction l with
  | nil => rfl
  | cons item rest ih =>
    obtain ⟨hh, ha⟩ := h item (List.mem_cons_self _ _)
    obtain ⟨h4, hh4⟩ := Option.isSome_iff_exists.mp hh
    obtain ⟨answer, hans⟩ := Option.isSome_iff_exists.mp ha
    have := ih fun x hx => h x (List.mem_cons_of_mem _ hx)
    simp [exportLoop, hh4, hans, this, Completion.map, Item.record]

/-! ## C18 -/

/-- C18, as stated, fails in one part: the record of an entry whose heading
and answer are empty has an empty question and an empty answer. -/
theorem export_records_counterexample :
    exportFAQData { demoPanel with items := [demoEmpty] } =
      .returned [{ question := [], answer := [], category := "General" }] := by
  decide

/-- C18, amended. For a panel whose entries all have a heading and an answer,
`exportFAQData` builds exactly one record per entry, in document order; the
record of an entry carries the text of its heading and of its answer as they
are (empty when the text is empty), and as category the label `General` when
`data-category` is unset or empty and the entry's own category otherwise. -/
theorem export_records (s : Panel)
    (h : ∀ item ∈ s.items, item.heading.isSome = true ∧ item.answer.isSome = true) :
    exportFAQData s = .returned (s.items.map Item.record) ∧
    (∀ (item : Item) (h4 : Content) (answer : Answer),
      item.heading = some h4 → item.answer = some answer →
        item.record.question = textContent h4 ∧
        item.record.answer = textContent answer.content) ∧
    (∀ item : Item, item.category = none ∨ item.category = some "" →
      item.record.category = "General") ∧
    (∀ (item : Item) (category : String), item.category = some category → category ≠ "" →
      item.record.category = category) := by
  refine ⟨exportLoop_eq s.items h, ?_, ?_, ?_⟩
  · intro item h4 answer hh ha
    simp [Item.record, hh, ha]
  · rintro item (hc | hc) <;> simp [Item.record, exportCategory, hc]
  · intro item category hc hne
    simp [Item.record, exportCategory, hc, hne]

/-- Witness of the amended C18 on the two-entry panel. -/
theorem export_records_witness :
    exportFAQData demoPanel =
      .returned
        [ { question := "Why ABC?".toList, answer := "Because.".toList, category := "general" },
          { question := "Other".toList, answer := "None".toList, category := "events" } ] := by
  have h := (export_records demoPanel (by
    intro item hi
    simp only [demoPanel, List.mem_cons, List.mem_singleton, List.not_mem_nil, or_false] at hi
    rcases hi with rfl | rfl <;> exact ⟨rfl, rfl⟩)).1
  rw [h]
  decide

/-! ## C20 -/

/-- C20 at the failing input: on the two closed entries, `toggleFAQ` on the
first and then on the second. The second call closes the first entry through
`closeAllFAQItems`, and `closeFAQItem` does not write `aria-expanded`: the
first entry is closed and its flag still says `true`. -/
theorem aria_expanded_failing_input :
    demoPanel.items.map (fun item => (item.isOpen, item.ariaExpanded)) =
        [(false, some false), (false, some false)] ∧
      (toggleAll [0, 1] demoPanel).items.map (fun item => (item.isOpen, item.ariaExpanded)) =
        [(false, some true), (true, some true)] := by
  decide

/-! ## C11 -/

/-- C11 at the failing input: a search for `zzz` matches no entry and shows
the notice; the next search, for `c++`, matches the first entry and raises the
`SyntaxError` of `new RegExp('c++', 'gi')` while highlighting it, before
`showNoResultsMessage` is reached, so the notice stays shown although an
entry matches. -/
theorem no_results_failing_input :
    (searchFAQ "zzz".toList demoCpp).map
        (fun c => (c.isReturned, c.state.noResults.map Notice.display,
          c.state.items.any (searchPredicate "c++".toList))) =
      some (true, some Display.block, true) ∧
    ((searchFAQ "zzz".toList demoCpp).bind fun c => searchFAQ "c++".toList c.state).map
        (fun c => (c.isReturned, c.state.noResults.map Notice.display)) =
      some (false, some Display.block) := by
  constructor <;> rfl

end FAQ

namespace FAQ

/-! ## Lemmas on clearing a search, for plain text -/

theorem parseLoop_nil (fuel : Nat) : parseLoop fuel [] = some [] := by
  cases fuel <;> simp [parseLoop]

theorem parseHTML_plain (t : Text) (h : PlainText t) : parseHTML t = some (textNode t) := by
  cases t with
  | nil => rfl
  | cons c cs =>
    have hc : isPlain c = true := h c (List.mem_cons_self _ _)
    have hlt : c ≠ '<' := by
      intro hcl
      subst hcl
      exact absurd hc (by decide)
    have hprefix : markOpen.isPrefixOf (c :: cs) = false := by
      have hm : markOpen = '<' :: markOpen.tail := by decide
      rw [hm, List.isPrefixOf]
      simp [Ne.symm hlt]
    have htake : (c :: cs).takeWhile isPlain = c :: cs :=
      List.takeWhile_eq_self_iff.mpr h
    have hdrop : (c :: cs).dropWhile isPlain = [] :=
      List.dropWhile_eq_nil_iff.mpr h
    unfold parseHTML
    simp only [List.length_cons, parseLoop, hprefix, htake, hdrop, parseLoop_nil]
    simp [textNode]

theorem textNode_facts (t : Text) :
    hasMark (textNode t) = false ∧ textContent (textNode t) = t := by
  unfold textNode
  by_cases ht : t = []
  · subst ht
    exact ⟨rfl, rfl⟩
  · simp [ht, hasMark, textContent, Node.isMark, Node.textContent]

theorem stripMarks_plain (c : Content) (h : PlainText (textContent c)) :
    ∃ c1, stripMarks c = some c1 ∧ hasMark c1 = false ∧ textContent c1 = textContent c := by
  unfold stripMarks
  cases hm : hasMark c with
  | false => exact ⟨c, by simp, hm, rfl⟩
  | true =>
    refine ⟨textNode (textContent c), ?_, (textNode_facts _).1, (textNode_facts _).2⟩
    simp [parseHTML_plain _ h]

theorem removeHighlighting_plain (item : Item) (h : item.Plain) :
    ∃ item1, removeHighlighting item = some (.returned item1) ∧
      shell item1 = shell item ∧ item1.marks = (some false, some false) ∧
      item1.texts = item.texts := by
  obtain ⟨h4, answer, hh, ha, hp1, hp2⟩ := h
  obtain ⟨c1, hs1, hm1, ht1⟩ := stripMarks_plain h4 hp1
  obtain ⟨c2, hs2, hm2, ht2⟩ := stripMarks_plain answer.content hp2
  obtain ⟨question, hq, hq4⟩ : ∃ question, item.question = some question ∧
      question.h4 = some h4 := by
    unfold Item.heading at hh
    cases hq : item.question with
    | none => simp [hq] at hh
    | some question =>
      rw [hq] at hh
      exact ⟨question, rfl, hh⟩
  have ha1 : (item.setHeading c1).answer = some answer := by
    simp [Item.setHeading, hq, ha]
  refine ⟨(item.setHeading c1).setAnswerContent c2, ?_, ?_, ?_, ?_⟩
  · unfold removeHighlighting
    simp only [hh, hs1, ha1, hs2]
  · rw [shell_setAnswerContent, shell_setHeading]
  · simp [Item.marks, Item.heading, Item.setHeading, Item.setAnswerContent, hq, ha, hm1, hm2]
  · simp [Item.texts, Item.heading, Item.setHeading, Item.setAnswerContent, hq, hq4, ha, ht1,
      ht2]

theorem clearLoop_plain (l : List Item) (h : ∀ item ∈ l, item.Plain) :
    ∃ l1, clearLoop l = some (.returned l1) ∧
      l1.map (fun item => (item.display, item.marks, item.texts)) =
        l.map fun item => (Display.block, ((some false, some false) : Option Bool × Option Bool),
          item.texts) := by
  induction l with
  | nil => exact ⟨[], rfl, rfl⟩
  | cons item rest ih =>
    obtain ⟨rest1, hr, hmap⟩ := ih fun x hx => h x (List.mem_cons_of_mem _ hx)
    have hp : Item.Plain { item with display := Display.block } := h item (List.mem_cons_self _ _)
    obtain ⟨item1, hrem, hshell, hmarks, htexts⟩ := removeHighlighting_plain _ hp
    refine ⟨item1 :: rest1, ?_, ?_⟩
    · simp [clearLoop, hrem, hr, Completion.map]
    · have hd : item1.display = Display.block := congrArg (fun x => x.1) hshell
      simp only [List.map_cons, hmap, hd, hmarks, htexts]
      rfl

theorem clearFAQSearch_plain (s : Panel) (h : ∀ item ∈ s.items, item.Plain) :
    ∃ s1, clearFAQSearch s = some (.returned s1) ∧
      s1.items.map (fun item => (item.display, item.marks, item.texts)) =
        s.items.map (fun item =>
          (Display.block, ((some false, some false) : Option Bool × Option Bool),
            item.texts)) ∧
      (∀ notice, s1.noResults = some notice → notice.display = Display.none) ∧
      (∀ count, s1.resultsCount = some count → count.display = Display.none) := by
  obtain ⟨l1, hl, hmap⟩ := clearLoop_plain s.items h
  have hrun : clearFAQSearch s = some (.returned
      (resetSearchResultsCount (hideNoResultsMessage { s with items := l1 }))) := by
    simp only [clearFAQSearch, hl]
  refine ⟨_, hrun, ?_, ?_, ?_⟩
  · rw [resetSearchResultsCount_items, hideNoResultsMessage_items]
    exact hmap
  · intro notice hn
    unfold resetSearchResultsCount hideNoResultsMessage at hn
    cases hnr : s.noResults <;> cases hrc : s.resultsCount <;> simp_all
    all_goals (rw [← hn])
  · intro count hc
    unfold resetSearchResultsCount hideNoResultsMessage at hc
    cases hnr : s.noResults <;> cases hrc : s.resultsCount <;> simp_all
    all_goals (rw [← hc])

end FAQ

namespace FAQ

/-! ## Lemmas on the no-results notice -/

theorem searchLoop_flag (term : Text) (l : List Item) (hr : Bool) (l1 : List Item)
    (hr1 : Bool) (h : searchLoop term l hr = some (.returned (l1, hr1))) :
    hr1 = (hr || l.any (searchPredicate term)) := by
  induction l generalizing hr l1 hr1 with
  | nil =>
    simp only [searchLoop, Option.some.injEq, Completion.returned.injEq, Prod.mk.injEq] at h
    simp [← h.2]
  | cons item rest ih =>
    unfold searchLoop at h
    split at h
    · next h4 answer hh ha =>
      have hp : searchPredicate term item = matchesTerm term h4 answer := by
        simp [searchPredicate, hh, ha]
      split at h
      · next hm =>
        split at h
        · dsimp only at h
          split at h
          · cases h
          · cases h
          · next item2 hhl =>
            obtain ⟨c0, hc0, hst, hret, hfl⟩ := consItem_eq_some _ _ _ h
            cases c0 with
            | raised x => simp [Completion.isReturned] at hret
            | returned x =>
              obtain ⟨x1, x2⟩ := x
              simp only [Completion.state] at hfl
              have := ih _ _ _ hc0
              simp [hfl, this, hp, hm]
        · obtain ⟨c0, hc0, hst, hret, hfl⟩ := consItem_eq_some _ _ _ h
          cases c0 with
          | raised x => simp [Completion.isReturned] at hret
          | returned x =>
            obtain ⟨x1, x2⟩ := x
            simp only [Completion.state] at hfl
            have := ih _ _ _ hc0
            simp [hfl, this, hp, hm]
      · next hm =>
        obtain ⟨c0, hc0, hst, hret, hfl⟩ := consItem_eq_some _ _ _ h
        cases c0 with
        | raised x => simp [Completion.isReturned] at hret
        | returned x =>
          obtain ⟨x1, x2⟩ := x
          simp only [Completion.state] at hfl
          have := ih _ _ _ hc0
          simp [hfl, this, hp, hm]
    · cases h

theorem updateSearchResultsCount_noResults (term : Text) (s : Panel) :
    (updateSearchResultsCount term s).noResults = s.noResults := by
  unfold updateSearchResultsCount
  dsimp only
  split
  · rfl
  · split <;> rfl

theorem showNoResultsMessage_noResults (hasResults : Bool) (term : Text) (s1 s : Panel)
    (h1 : s1.noResults = s.noResults) (h2 : s1.hasContainer = s.hasContainer) :
    (showNoResultsMessage hasResults term s1).noResults =
      (showNoResultsMessage hasResults term s).noResults := by
  unfold showNoResultsMessage
  rw [h1, h2]
  cases hb : (!hasResults && decide (term ≠ [])) <;> cases hn : s.noResults <;>
    cases hc : s.hasContainer <;> simp [h1, hn]

theorem searchFAQ_noResults (term : Text) (s s1 : Panel)
    (h : searchFAQ term s = some (.returned s1)) :
    s1.noResults =
      (showNoResultsMessage (s.items.any (searchPredicate term)) term s).noResults := by
  unfold searchFAQ at h
  split at h
  · cases h
  · cases h
  · next items hr hl =>
    cases h
    have hflag := searchLoop_flag term s.items false items hr hl
    simp only [Bool.false_or] at hflag
    rw [updateSearchResultsCount_noResults, hflag]
    exact showNoResultsMessage_noResults _ term _ s rfl rfl

theorem searchFAQ_notice_shown (term : Text) (s s1 : Panel)
    (h : searchFAQ term s = some (.returned s1))
    (hc : s.hasContainer = true ∨ s.noResults.isSome = true) :
    (term ≠ [] ∧ s.items.any (searchPredicate term) = false →
      ∃ notice, s1.noResults = some notice ∧ notice.display = Display.block) ∧
    (¬ (term ≠ [] ∧ s.items.any (searchPredicate term) = false) →
      ∀ notice, s1.noResults = some notice → notice.display = Display.none) := by
  rw [searchFAQ_noResults term s s1 h]
  unfold showNoResultsMessage
  constructor
  · rintro ⟨ht, hany⟩
    simp only [hany, Bool.not_false, Bool.true_and, ht, ne_eq, not_false_eq_true,
      decide_True, if_true]
    cases hn : s.noResults with
    | some notice => exact ⟨_, rfl, rfl⟩
    | none =>
      rcases hc with hc | hc
      · simp [hc]
      · simp [hn] at hc
  · intro hnot notice hn
    have hcond : (!(s.items.any (searchPredicate term)) && decide (term ≠ [])) = false := by
      by_cases ht : term = []
      · simp [ht]
      · cases hany : s.items.any (searchPredicate term) with
        | true => simp
        | false => exact absurd ⟨ht, hany⟩ hnot
    simp only [hcond, Bool.false_eq_true, if_false] at hn
    cases hnr : s.noResults with
    | none => simp [hnr] at hn
    | some n0 =>
      simp only [hnr, Option.some.injEq] at hn
      rw [← hn]

end FAQ

namespace FAQ

/-! ## Lemmas on `aria-expanded`: the toggled entry -/

theorem closeTail_aria (item : Item) (answer : Answer) (toggle : Toggle) (question : Question)
    (ha : item.answer = some answer) (ht : item.toggle = some toggle)
    (hq : item.question = some question) :
    (closeTail item).state.isOpen = false ∧ (closeTail item).state.ariaExpanded = some false := by
  unfold closeTail closeFAQItem setAriaExpanded trackFAQInteraction
  simp only [ha, ht, hq, andThen]
  cases hh : question.h4 <;>
    simp [Completion.state, Item.isOpen, Item.ariaExpanded, hh]

theorem openTail_aria (item : Item) (answer : Answer) (toggle : Toggle) (question : Question)
    (ha : item.answer = some answer) (ht : item.toggle = some toggle)
    (hq : item.question = some question) :
    (openTail item).state.isOpen = true ∧ (openTail item).state.ariaExpanded = some true := by
  unfold openTail openFAQItem setAriaExpanded trackFAQInteraction
  simp only [ha, ht, hq, andThen]
  cases hh : question.h4 <;>
    simp [Completion.state, Item.isOpen, Item.ariaExpanded, hh]

theorem closeIfOpen_parts (item : Item) :
    (closeIfOpen item).state.answer.isSome = item.answer.isSome ∧
      (closeIfOpen item).state.toggle.isSome = item.toggle.isSome ∧
      (closeIfOpen item).state.question = item.question := by
  unfold closeIfOpen closeFAQItem
  cases h1 : item.openClass <;> cases h2 : item.answer <;> cases h3 : item.toggle <;>
    simp [Completion.state, h2, h3]

theorem toggleFAQ_aria_toggled (s : Panel) (hs : s.Sound) (i : Nat) (item : Item)
    (hi : s.items[i]? = some item) (ha : item.answer.isSome = true)
    (hq : item.question.isSome = true) :
    ∃ item1, (toggleFAQ s i).state.items[i]? = some item1 ∧
      item1.isOpen = !item.isOpen ∧ item1.ariaExpanded = some item1.isOpen := by
  obtain ⟨answer, hans⟩ := Option.isSome_iff_exists.mp ha
  obtain ⟨question, hqu⟩ := Option.isSome_iff_exists.mp hq
  have hmem : item ∈ s.items := List.mem_iff_getElem?.mpr ⟨i, hi⟩
  obtain ⟨toggle, htg⟩ := Option.isSome_iff_exists.mp (hs item hmem).1
  have hlt : i < s.items.length := (List.getElem?_eq_some.mp hi).1
  rw [toggleFAQ_eq s i item answer hi hans]
  cases hact : answer.active with
  | true =>
    simp only [if_true]
    obtain ⟨h1, h2⟩ := closeTail_aria item answer toggle question hans htg hqu
    refine ⟨(closeTail item).state, ?_, ?_, ?_⟩
    · rw [onItem_state_items]
      simp [hi, List.getElem?_set, hlt]
    · rw [h1]
      simp [Item.isOpen, hans, hact]
    · rw [h2, h1]
  | false =>
    simp only [Bool.false_eq_true, if_false]
    rw [closeAllFAQItems_eq s hs]
    simp only [andThen]
    have hi0 : (s.items.map fun item => (closeIfOpen item).state)[i]? =
        some (closeIfOpen item).state := by
      simp [hi]
    obtain ⟨p1, p2, p3⟩ := closeIfOpen_parts item
    obtain ⟨answer0, hans0⟩ := Option.isSome_iff_exists.mp (by rw [p1]; exact ha)
    obtain ⟨toggle0, htg0⟩ := Option.isSome_iff_exists.mp (by rw [p2, htg]; rfl)
    obtain ⟨h1, h2⟩ := openTail_aria (closeIfOpen item).state answer0 toggle0 question hans0 htg0
      (by rw [p3, hqu])
    refine ⟨(openTail (closeIfOpen item).state).state, ?_, ?_, ?_⟩
    · rw [onItem_state_items]
      simp only [hi0]
      simp [List.getElem?_set, hlt]
    · rw [h1]
      simp [Item.isOpen, hans, hact]
    · rw [h2, h1]

end FAQ

namespace FAQ

/-! ## Lemmas on the search on every host -/

theorem removeHighlightingOn_shell (host : Host) (item : Item) :
    shell (removeHighlightingOn host item).state = shell item := by
  unfold removeHighlightingOn
  split
  · rfl
  · dsimp only
    split
    · simp [Completion.state, shell_setHeading]
    · simp [Completion.state, shell_setHeading, shell_setAnswerContent]

theorem highlightSearchTermsOn_shell (host : Host) (item : Item) (term : Text) :
    shell (highlightSearchTermsOn host item term).state = shell item := by
  have h0 := removeHighlightingOn_shell host item
  unfold highlightSearchTermsOn
  split
  · next item1 hr =>
    rw [hr] at h0
    exact h0
  · next item1 hr =>
    rw [hr] at h0
    simp only [Completion.state] at h0
    split
    · split
      · exact h0
      · dsimp only
        split
        · simp [Completion.state, shell_setHeading, h0]
        · simp [Completion.state, shell_setHeading, shell_setAnswerContent, h0]
    · exact h0

theorem consItemOn_state (item : Item) (c : Completion (List Item × Bool)) :
    (consItemOn item c).state = (item :: c.state.1, c.state.2) ∧
      (consItemOn item c).isReturned = c.isReturned := by
  cases c <;> exact ⟨rfl, rfl⟩

theorem searchLoopOn_view (host : Host) (term : Text) (l : List Item) (hr : Bool) :
    (searchLoopOn host term l hr).state.1.map accordionView = l.map accordionView := by
  induction l generalizing hr with
  | nil => rfl
  | cons item rest ih =>
    unfold searchLoopOn
    split
    · split
      · split
        · dsimp only
          have hv := view_of_shell _ _
            (highlightSearchTermsOn_shell host { item with display := Display.block } term)
          split
          · next item2 hh =>
            rw [hh] at hv
            simp only [Completion.state, List.map_cons, List.cons.injEq, and_true]
            exact hv
          · next item2 hh =>
            rw [hh] at hv
            rw [(consItemOn_state _ _).1, List.map_cons, ih, List.map_cons]
            congr 1
        · rw [(consItemOn_state _ _).1, List.map_cons, ih, List.map_cons]
          rfl
      · rw [(consItemOn_state _ _).1, List.map_cons, ih, List.map_cons]
        rfl
    · rfl

theorem searchLoopOn_display (host : Host) (term : Text) (l : List Item) (hr : Bool)
    (l1 : List Item) (hr1 : Bool) (h : searchLoopOn host term l hr = .returned (l1, hr1)) :
    l1.map Item.display =
        (l.map fun item =>
          if searchPredicateOn host term item then Display.block else Display.none) ∧
      hr1 = (hr || l.any (searchPredicateOn host term)) := by
  induction l generalizing hr l1 hr1 with
  | nil =>
    simp only [searchLoopOn, Completion.returned.injEq, Prod.mk.injEq] at h
    simp [← h.1, ← h.2]
  | cons item rest ih =>
    have tail : ∀ (item2 : Item) (flag : Bool),
        consItemOn item2 (searchLoopOn host term rest flag) = .returned (l1, hr1) →
        ∃ l2, l1 = item2 :: l2 ∧
          l2.map Item.display =
            (rest.map fun item =>
              if searchPredicateOn host term item then Display.block else Display.none) ∧
          hr1 = (flag || rest.any (searchPredicateOn host term)) := by
      intro item2 flag hc
      cases hrest : searchLoopOn host term rest flag with
      | raised x => simp [hrest, consItemOn, Completion.map] at hc
      | returned x =>
        obtain ⟨x1, x2⟩ := x
        simp only [hrest, consItemOn, Completion.map, Completion.returned.injEq,
          Prod.mk.injEq] at hc
        obtain ⟨h1, h2⟩ := ih _ _ _ hrest
        exact ⟨x1, hc.1.symm, h1, by rw [← hc.2]; exact h2⟩
    unfold searchLoopOn at h
    split at h
    · next h4 answer hh ha =>
      have hp : searchPredicateOn host term item = matchesTermOn host term h4 answer := by
        simp [searchPredicateOn, hh, ha]
      split at h
      · next hm =>
        split at h
        · dsimp only at h
          have hd := congrArg (fun x => x.1)
            (highlightSearchTermsOn_shell host { item with display := Display.block } term)
          split at h
          · cases h
          · next item2 hhl =>
            rw [hhl] at hd
            simp only [shell, Completion.state] at hd
            obtain ⟨l2, rfl, h1, h2⟩ := tail _ _ h
            simp [h1, h2, hp, hm, hd]
        · obtain ⟨l2, rfl, h1, h2⟩ := tail _ _ h
          simp [h1, h2, hp, hm]
      · next hm =>
        obtain ⟨l2, rfl, h1, h2⟩ := tail _ _ h
        simp [h1, h2, hp, hm]
    · cases h

theorem clearLoopOn_view (host : Host) (l : List Item) :
    (clearLoopOn host l).state.map accordionView = l.map accordionView := by
  induction l with
  | nil => rfl
  | cons item rest ih =>
    have hv := view_of_shell _ _
      (removeHighlightingOn_shell host { item with display := Display.block })
    unfold clearLoopOn
    split
    · next item1 hh =>
      rw [hh] at hv
      simp only [Completion.state, List.map_cons, List.cons.injEq, and_true]
      exact hv
    · next item1 hh =>
      rw [hh] at hv
      have hst : ((clearLoopOn host rest).map fun rest1 => item1 :: rest1).state =
          item1 :: (clearLoopOn host rest).state := by
        cases clearLoopOn host rest <;> rfl
      rw [hst, List.map_cons, ih, List.map_cons]
      congr 1

theorem searchFAQOn_view (host : Host) (term : Text) (s : Panel) :
    (searchFAQOn host term s).state.items.map accordionView = s.items.map accordionView := by
  have h := searchLoopOn_view host term s.items false
  unfold searchFAQOn
  split
  · next items hr hl =>
    rw [hl] at h
    exact h
  · next items hr hl =>
    rw [hl] at h
    simp only [Completion.state, updateSearchResultsCount_items, showNoResultsMessage_items]
    exact h

theorem clearFAQSearchOn_view (host : Host) (s : Panel) :
    (clearFAQSearchOn host s).state.items.map accordionView = s.items.map accordionView := by
  have h := clearLoopOn_view host s.items
  unfold clearFAQSearchOn
  split
  · next items hl =>
    rw [hl] at h
    exact h
  · next items hl =>
    rw [hl] at h
    simp only [Completion.state, resetSearchResultsCount_items, hideNoResultsMessage_items]
    exact h

theorem searchFAQOn_display (host : Host) (term : Text) (s s1 : Panel)
    (h : searchFAQOn host term s = .returned s1) :
    s1.items.map Item.display =
      s.items.map fun item =>
        if searchPredicateOn host term item then Display.block else Display.none := by
  unfold searchFAQOn at h
  split at h
  · cases h
  · next items hr hl =>
    cases h
    simp only [updateSearchResultsCount_items, showNoResultsMessage_items]
    exact (searchLoopOn_display host term s.items false items hr hl).1

theorem runOn_inv (host : Host) (op : FaqOp) (hop : op.keepsExclusive = true) (s : Panel)
    (h : s.Sound) (hc : openCount s ≤ 1) :
    (op.runOn host s).state.Sound ∧ openCount (op.runOn host s).state ≤ 1 := by
  cases op with
  | toggle i => exact ⟨toggleFAQ_sound s h i, toggleFAQ_openCount s h hc i⟩
  | openItem i => simp [FaqOp.keepsExclusive] at hop
  | close i => exact close_inv s h hc i
  | openAll => simp [FaqOp.keepsExclusive] at hop
  | closeAll => exact closeAll_inv s h
  | search term => exact inv_of_view s _ (searchFAQOn_view host term s) h hc
  | clearSearch => exact inv_of_view s _ (clearFAQSearchOn_view host s) h hc
  | filterByCategory category => exact filterFAQByCategory_inv category s h

theorem runOpsOn_inv (host : Host) (ops : List FaqOp)
    (hops : ∀ op ∈ ops, op.keepsExclusive = true) (s : Panel) (h : s.Sound)
    (hc : openCount s ≤ 1) :
    (runOpsOn host ops s).Sound ∧ openCount (runOpsOn host ops s) ≤ 1 := by
  induction ops generalizing s with
  | nil => exact ⟨h, hc⟩
  | cons op ops ih =>
    obtain ⟨h1, hc1⟩ := runOn_inv host op (hops op (List.mem_cons_self op ops)) s h hc
    exact ih (fun o ho => hops o (List.mem_cons_of_mem op ho)) _ h1 hc1

end FAQ

namespace FAQ

theorem returned_of_isReturned {σ : Type} (c : Completion σ) (h : c.isReturned = true) :
    c = .returned c.state := by
  cases c with
  | returned x => rfl
  | raised x => simp [Completion.isReturned] at h

/-! ## C1 -/

/-- C1 at the failing input: two closed entries that `initFAQ` makes
interactive although neither has a toggle indicator; `toggleFAQ` on the first
and then on the second. Each call raises in `openFAQItem` after the answer was
made active and before the item got its `open` class, so `closeAllFAQItems`,
which looks for `.faq-item.open`, never closes the first entry: both entries
end open. `accordion_exclusive_with_toggles` is the claim on the panels whose
entries have their toggle indicator. -/
theorem toggle_exclusivity_failing_input :
    demoNoToggles.items.map
        (fun item => (madeInteractive item, item.isOpen, item.openClass)) =
      [(true, false, false), (true, false, false)] ∧
    (toggleAll [0, 1] demoNoToggles).items.map Item.isOpen = [true, true] ∧
    openCount (toggleAll [0, 1] demoNoToggles) = 2 := by
  decide

/-! ## C2, amended -/

/-- C2, amended. In a panel whose entries are all closed and carry their toggle
indicator, every state reached by any sequence of the exported operations
toggle, close, closeAll, search, clearSearch and filterByCategory (every
exported operation but `open` and `openAll`) has at most one open entry,
whatever the host's lower-casing, regular expressions and HTML parser do and
whether the calls return or raise. -/
theorem exclusive_under_closing_operations (host : Host) (s : Panel)
    (hclosed : s.AllClosed) (htoggles : s.HasToggles) (ops : List FaqOp)
    (hops : ∀ op ∈ ops, op.keepsExclusive = true) :
    openCount (runOpsOn host ops s) ≤ 1 := by
  have h0 : openCount s ≤ 1 := by
    rw [openCount_of_allClosed s hclosed]
    exact Nat.zero_le 1
  exact (runOpsOn_inv host ops hops s (sound_of_allClosed s hclosed htoggles) h0).2

/-- Witness of the amended C2: a run of toggles, searches (one of them raising
on the term `c++`), a filter, a clear and closes on the two-entry panel. -/
theorem exclusive_under_closing_operations_witness :
    demoPanel.AllClosed ∧ demoPanel.HasToggles ∧
      openCount (runOpsOn demoHost [FaqOp.toggle 0, FaqOp.search "abc".toList,
        FaqOp.toggle 1, FaqOp.search "c++".toList, FaqOp.filterByCategory "general",
        FaqOp.clearSearch, FaqOp.close 0, FaqOp.closeAll, FaqOp.toggle 1] demoPanel) ≤ 1 :=
  ⟨demoPanel_allClosed, demoPanel_hasToggles,
    exclusive_under_closing_operations demoHost demoPanel demoPanel_allClosed
      demoPanel_hasToggles _ (by decide)⟩

/-! ## C6 -/

/-- C6 at the failing input: the panel of two entries without toggle
indicator, after `toggleFAQ` on the first has left its answer active and its
item without the `open` class; then `filterFAQByCategory('all')`. The call
returns and shows both entries, and `closeAllFAQItems`, which closes the
elements matching `.faq-item.open` only, leaves the first answer active.
`category_filter_on_sound` is the claim on the panels whose `open` classes
agree with the active answers. -/
theorem category_filter_failing_input :
    (toggleFAQ demoNoToggles 0).state.items.map (fun item => (item.isOpen, item.openClass)) =
      [(true, false), (false, false)] ∧
    (filterFAQByCategory "all" (toggleFAQ demoNoToggles 0).state).isReturned = true ∧
    (filterFAQByCategory "all" (toggleFAQ demoNoToggles 0).state).state.items.map
        (fun item => (item.display, item.isOpen)) =
      [(Display.block, true), (Display.block, false)] := by
  decide

/-! ## C7, amended -/

/-- C7, amended. Visibility is decided by the most recent call alone, in every
state of the panel (so after any interleaving) and on every host: after
`filterFAQByCategory(c)` an entry is visible exactly when it satisfies the
category predicate, and after a `searchFAQ(term)` that ran to its end an entry
is visible exactly when the term occurs in the text of its heading or of its
answer as the host lower-cases it, whatever the other filter had decided. -/
theorem visibility_decided_by_last_call (host : Host) (s : Panel) :
    (∀ (category : String) (i : Nat) (item : Item), s.items[i]? = some item →
      ∃ item1, (filterFAQByCategory category s).state.items[i]? = some item1 ∧
        item1.display = (if categoryPredicate category item then Display.block
          else Display.none)) ∧
    (∀ (term : Text) (s1 : Panel), searchFAQOn host term s = .returned s1 →
      ∀ (i : Nat) (item : Item), s.items[i]? = some item →
        ∃ item1, s1.items[i]? = some item1 ∧
          item1.display = (if searchPredicateOn host term item then Display.block
            else Display.none)) := by
  constructor
  · intro category i item hi
    obtain ⟨item1, h1, h2⟩ := getElem?_of_map_eq _ _ _ _
      (filterFAQByCategory_display category s) i item hi
    simp only [Prod.mk.injEq] at h2
    exact ⟨item1, h1, h2.1⟩
  · intro term s1 hrun i item hi
    exact getElem?_of_map_eq _ _ _ _ (searchFAQOn_display host term s s1 hrun) i item hi

/-- Witness of the amended C7: a search for `abc` on the example panel, whose
entries the category filter `events` had left with the first one hidden; the
search shows the first entry and hides the second. -/
theorem visibility_decided_by_last_call_witness :
    (filterFAQByCategory "events" demoPanel).state.items.map Item.display =
        [Display.none, Display.block] ∧
      ∃ s1, searchFAQOn demoHost "abc".toList (filterFAQByCategory "events" demoPanel).state =
          .returned s1 ∧
        ∃ item1, s1.items[0]? = some item1 ∧ item1.display = Display.block := by
  have hrun := returned_of_isReturned
    (searchFAQOn demoHost "abc".toList (filterFAQByCategory "events" demoPanel).state) rfl
  obtain ⟨item0, hi0⟩ : ∃ item0,
      (filterFAQByCategory "events" demoPanel).state.items[0]? = some item0 ∧
        searchPredicateOn demoHost "abc".toList item0 = true := ⟨_, rfl, by decide⟩
  obtain ⟨item1, h2, h3⟩ :=
    (visibility_decided_by_last_call demoHost (filterFAQByCategory "events" demoPanel).state).2
      "abc".toList _ hrun 0 item0 hi0.1
  rw [hi0.2] at h3
  exact ⟨rfl, _, hrun, item1, h2, h3⟩

end FAQ

namespace FAQ

/-! ## The results count and the notice on every host -/

theorem searchFAQOn_resultsCount (host : Host) (term : Text) (s s1 : Panel)
    (h : searchFAQOn host term s = .returned s1) (hterm : term ≠ [])
    (hc : s.hasSearchContainer = true ∨ s.resultsCount.isSome = true) :
    s1.resultsCount =
      some { text := resultsText (s.items.filter (searchPredicateOn host term)).length,
             display := Display.block } := by
  unfold searchFAQOn at h
  split at h
  · cases h
  · next items hr hl =>
    cases h
    have hd := (searchLoopOn_display host term s.items false items hr hl).1
    have hv := visibleCount_of_display (searchPredicateOn host term) items s.items hd
    have hn : ∀ p : Panel, (showNoResultsMessage hr term p).resultsCount = p.resultsCount ∧
        (showNoResultsMessage hr term p).hasSearchContainer = p.hasSearchContainer := by
      intro p
      unfold showNoResultsMessage
      split <;> split <;> try exact ⟨rfl, rfl⟩
      split <;> exact ⟨rfl, rfl⟩
    unfold updateSearchResultsCount
    simp only [(hn _).1, (hn _).2, showNoResultsMessage_items, hv, hterm, ne_eq,
      not_false_eq_true, if_true]
    cases hrc : s.resultsCount with
    | some e => rfl
    | none =>
      rcases hc with hc | hc
      · simp [hc]
      · simp [hrc] at hc

theorem searchFAQOn_noResults (host : Host) (term : Text) (s s1 : Panel)
    (h : searchFAQOn host term s = .returned s1) :
    s1.noResults =
      (showNoResultsMessage (s.items.any (searchPredicateOn host term)) term s).noResults := by
  unfold searchFAQOn at h
  split at h
  · cases h
  · next items hr hl =>
    cases h
    have hflag := (searchLoopOn_display host term s.items false items hr hl).2
    simp only [Bool.false_or] at hflag
    rw [updateSearchResultsCount_noResults, hflag]
    exact showNoResultsMessage_noResults _ term _ s rfl rfl

theorem searchFAQOn_notice_shown (host : Host) (term : Text) (s s1 : Panel)
    (h : searchFAQOn host term s = .returned s1)
    (hc : s.hasContainer = true ∨ s.noResults.isSome = true) :
    (term ≠ [] ∧ s.items.any (searchPredicateOn host term) = false →
      ∃ notice, s1.noResults = some notice ∧ notice.display = Display.block) ∧
    (¬ (term ≠ [] ∧ s.items.any (searchPredicateOn host term) = false) →
      ∀ notice, s1.noResults = some notice → notice.display = Display.none) := by
  rw [searchFAQOn_noResults host term s s1 h]
  unfold showNoResultsMessage
  constructor
  · rintro ⟨ht, hany⟩
    simp only [hany, Bool.not_false, Bool.true_and, ht, ne_eq, not_false_eq_true,
      decide_True, if_true]
    cases hn : s.noResults with
    | some notice => exact ⟨_, rfl, rfl⟩
    | none =>
      rcases hc with hc | hc
      · simp [hc]
      · simp [hn] at hc
  · intro hnot notice hn
    have hcond :
        (!(s.items.any (searchPredicateOn host term)) && decide (term ≠ [])) = false := by
      by_cases ht : term = []
      · simp [ht]
      · cases hany : s.items.any (searchPredicateOn host term) with
        | true => simp
        | false => exact absurd ⟨ht, hany⟩ hnot
    simp only [hcond, Bool.false_eq_true, if_false] at hn
    cases hnr : s.noResults with
    | none => simp [hnr] at hn
    | some n0 =>
      simp only [hnr, Option.some.injEq] at hn
      rw [← hn]

end FAQ
